import Mathlib

/-!
# Token lifecycle of the workflow-date backend

A shallow embedding of the token store helpers of `helper.js`
(`storeTokensInSupabase`, `getTokensFromSupabase`, `getTokensByPortalId`,
`deleteTokensFromSupabase`, `isTokenExpired`), of `calculateNewDate`, and of
the token functions of `index.js` (`exchangeForTokens`, `refreshAccessToken`,
`getAccessToken`, `isAuthorized`), followed by theorems about them.

Conventions of the embedding

* `async` functions become pure functions that take the table before the call
  and return a `Run`: the outcome (`Except JsError`), the table afterwards and
  the list of store / network operations issued, in order.
* The hosted table and the HTTP client are collaborators outside the
  repository.  Their answers are inputs: a `Faults` record says which store
  operation is answered with an error object, a `PostResult` says what the
  token endpoint does, and clock readings are passed as milliseconds since the
  epoch.
* JavaScript numbers are modelled by `JsNum`: the integers, `NaN` and the two
  infinities.  Times are `Int` milliseconds; a `Date` holds an
  `Option Int` (`none` is the invalid date).  `String(x)` of an integer is the
  text of the number nearest to it: shortest digits, exponent form from 1e21.
* `Date.parse` on arbitrary text, `JSON.parse`, `Number(text)`, `toLowerCase`
  and the local-time getters and setters of `Date` are runtime services whose
  result is taken as a parameter (`DateParse`, `JsonParse`, `NumberParse`,
  `LocalCalendar`).
* A `userId` is text, as a session id is, so `String(userId)` is the identity;
  tokens, `expiresIn` and `portalId` are `JsValue`s and go through `String(x)`,
  truthiness and `typeof` as in the code.
* The table is a list of rows; `user_id` is its unique key (`UniqueUsers`),
  which theorems about lookups assume and writes preserve.
-/

namespace TokenStore

/-! ## JavaScript values -/

/-- The numbers that can reach the helpers: integers, `NaN`, `Infinity`, `-Infinity`. -/
inductive JsNum where
  | int (n : Int)
  | nan
  | posInf
  | negInf
  deriving DecidableEq

/-- The primitive values that can be passed as an argument. -/
inductive JsValue where
  | undefined
  | null
  | bool (b : Bool)
  | num (x : JsNum)
  | str (s : String)
  deriving DecidableEq

/-- The number of binary digits of `n`, by halving at most `fuel` times. -/
def bitLength : Nat → Nat → Nat
  | 0, _ => 0
  | fuel + 1, n => if n == 0 then 0 else bitLength fuel (n / 2) + 1

/-- The number nearest to the natural number `a`, ties going to the even mantissa: an integer
of at most 53 binary digits is a number itself, a larger one is rounded to 53 significant
binary digits. -/
def nearestNumber (a : Nat) : Nat :=
  let bits := bitLength a a
  if Nat.ble bits 53 then a
  else
    let ulp := 2 ^ (bits - 53)
    let m := a / ulp
    let rest := a % ulp
    if Nat.blt ulp (2 * rest) || (2 * rest == ulp && m % 2 == 1) then (m + 1) * ulp
    else m * ulp

/-- The decimal value with the fewest significant digits whose nearest number is `x`, and
among those the one closest to `x`; seventeen digits always suffice. -/
def shortestDecimal (x : Nat) : Nat :=
  let digits := (toString x).length
  let pick := (List.range 17).findSome? (fun i =>
    let step := 10 ^ (digits - (i + 1))
    let below := x / step * step
    let above := below + step
    let okBelow := nearestNumber below == x
    let okAbove := nearestNumber above == x
    if okBelow && okAbove then
      (if Nat.ble (x - below) (above - x) then some below else some above)
    else if okBelow then some below
    else if okAbove then some above
    else none)
  match pick with
  | some v => v
  | none => x

/-- The text of a positive decimal value in exponent form: the significant digits with a
point after the first, then `e+` and the exponent. -/
def exponentForm (v : Nat) : String :=
  let ds := (toString v).data
  let significant := (ds.reverse.dropWhile (fun c => c == '0')).reverse
  let exponent := toString (ds.length - 1)
  match significant with
  | [] => "0"
  | [d] => String.mk [d] ++ "e+" ++ exponent
  | d :: more => String.mk (d :: '.' :: more) ++ "e+" ++ exponent

/-- The text `String(x)` of the number nearest to a natural number: the shortest digits that
give the number back, written out in full up to 21 digits and in exponent form beyond;
`Infinity` from 2^1024 on. -/
def natToStr (a : Nat) : String :=
  let x := nearestNumber a
  if Nat.blt 1024 (bitLength x x) then "Infinity"
  else
    let v := shortestDecimal x
    if Nat.ble (toString v).length 21 then toString v else exponentForm v

/-- The text `String(x)` of the number nearest to an integer. -/
def intToStr (n : Int) : String :=
  if n < 0 then "-" ++ natToStr n.natAbs else natToStr n.natAbs

/-- The conversion `String(x)`; an integer stands for the number nearest to it and prints as
the runtime prints that number (`3600`, `1152921504606847000` for 2^60, `1e+21`). -/
def JsValue.toStr : JsValue → String
  | .undefined => "undefined"
  | .null => "null"
  | .bool true => "true"
  | .bool false => "false"
  | .num (.int n) => intToStr n
  | .num .nan => "NaN"
  | .num .posInf => "Infinity"
  | .num .negInf => "-Infinity"
  | .str s => s

/-- The truthiness used by `!x`, `x && y` and `if (x)`. -/
def JsValue.truthy : JsValue → Bool
  | .undefined => false
  | .null => false
  | .bool b => b
  | .num (.int n) => n != 0
  | .num .nan => false
  | .num _ => true
  | .str s => s != ""

/-- The test `typeof x === 'number'`. -/
def JsValue.isNumber : JsValue → Bool
  | .num _ => true
  | _ => false

/-- A nullable text column read from the table, as a JavaScript value. -/
def ofColumn : Option String → JsValue
  | none => .null
  | some s => .str s

/-- The comparison `x <= 0` on numbers. -/
def JsNum.leZero : JsNum → Bool
  | .int n => n ≤ 0
  | .nan => false
  | .posInf => false
  | .negInf => true

/-- The expression `base + x * 1000` for an integer `base`. -/
def JsNum.scaledFrom (base : Int) : JsNum → JsNum
  | .int n => .int (base + n * 1000)
  | .nan => .nan
  | .posInf => .posInf
  | .negInf => .negInf

/-! ## Errors -/

/-- The values that are thrown or handed back as `error` by a collaborator. -/
inductive JsError where
  /-- The `error` object of a store reply: its `code` and `message`. -/
  | store (code : String) (message : String)
  /-- An `Error` (or `RangeError`, `SyntaxError`, `TypeError`) with its message. -/
  | error (message : String)
  /-- A rejection of the HTTP client that carries `response.body`. -/
  | status (message : String) (body : String)
  deriving DecidableEq

/-- The field `e.message`. -/
def JsError.message : JsError → String
  | .store _ m => m
  | .error m => m
  | .status m _ => m

/-- The field `e.response`, reduced to its body. -/
def JsError.response : JsError → Option String
  | .status _ body => some body
  | _ => none

/-! ## Dates -/

/-- The largest absolute time value of a `Date`, 8.64e15 ms. -/
def maxTime : Int := 8640000000000000

/-- The clipping done by `new Date(number)`: out of range gives the invalid date. -/
def timeClip (t : Int) : Option Int :=
  if t.natAbs ≤ maxTime.toNat then some t else none

/-- The date `new Date(x)` for a number `x`. -/
def dateOfNum : JsNum → Option Int
  | .int n => timeClip n
  | _ => none

/-- Decimal digits of `n`, padded with zeros on the left to `width`. -/
def padZero (width : Nat) (n : Nat) : String :=
  let s := toString n
  String.mk (List.replicate (width - s.length) '0') ++ s

/-- Year, month and day of the proleptic Gregorian calendar for a day count from 1970-01-01. -/
def civilFromDays (days : Int) : Int × Int × Int :=
  let z := days + 719468
  let era := z / 146097
  let doe := z - era * 146097
  let yoe := (doe - doe / 1460 + doe / 36524 - doe / 146096) / 365
  let doy := doe - (365 * yoe + yoe / 4 - yoe / 100)
  let mp := (5 * doy + 2) / 153
  let d := doy - (153 * mp + 2) / 5 + 1
  let m := if mp < 10 then mp + 3 else mp - 9
  let y := yoe + era * 400 + (if m ≤ 2 then 1 else 0)
  (y, m, d)

/-- The year field of the ISO format: four digits, or a sign and six digits. -/
def isoYear (y : Int) : String :=
  if 0 ≤ y ∧ y ≤ 9999 then padZero 4 y.toNat
  else (if y < 0 then "-" else "+") ++ padZero 6 y.natAbs

/-- The text before the final `Z` of `toISOString` for a valid time value. -/
def isoBody (t : Int) : String :=
  let days := t / 86400000
  let ms := (t % 86400000).toNat
  let (y, m, d) := civilFromDays days
  isoYear y ++ "-" ++ padZero 2 m.toNat ++ "-" ++ padZero 2 d.toNat ++ "T"
    ++ padZero 2 (ms / 3600000) ++ ":" ++ padZero 2 (ms / 60000 % 60) ++ ":"
    ++ padZero 2 (ms / 1000 % 60) ++ "." ++ padZero 3 (ms % 1000)

/-- The text `YYYY-MM-DDTHH:mm:ss.sssZ` of a valid time value. -/
def isoString (t : Int) : String :=
  isoBody t ++ "Z"

/-- The method `date.toISOString()`: a `RangeError` on the invalid date. -/
def toISOString : Option Int → Except JsError String
  | some t => .ok (isoString t)
  | none => .error (.error "Invalid time value")

/-- The test `s.endsWith('Z')`. -/
def endsWithZ (s : String) : Bool :=
  s.data.getLast? == some 'Z'

/-- The test `s.includes('+')`. -/
def includesPlus (s : String) : Bool :=
  s.data.contains '+'

/-- The runtime service `Date.parse` on text: `none` is `NaN`. -/
abbrev DateParse := String → Option Int

/-- The date `new Date(s)` for text `s`; the empty text never parses. -/
def dateOfString (parse : DateParse) (s : String) : Option Int :=
  if s = "" then none else (parse s).bind timeClip

/-! ## The table `hubspot_tokens` -/

/-- One row of the table, with the columns the code reads and writes. -/
structure Row where
  user_id : String
  access_token : Option String
  refresh_token : Option String
  expires_at : Option String
  updated_at : Option String
  portal_id : Option String
  deriving DecidableEq

/-- The object `tokenData` handed to the upsert; `portal_id` is `none` when the key is not set. -/
structure TokenData where
  user_id : String
  access_token : String
  refresh_token : String
  expires_at : String
  updated_at : String
  portal_id : Option String
  deriving DecidableEq

/-- A store or network operation issued by the code. -/
inductive Effect where
  | selectByUser (userId : String)
  | selectByPortal (portalId : String)
  | upsert (d : TokenData)
  | delete (userId : String)
  | post (grantType : String) (credential : JsValue)
  deriving DecidableEq

/-- The outcome of a call: the result or the thrown value, the table afterwards, and the
operations issued, in order. -/
structure Run (α : Type) where
  result : Except JsError α
  rows : List Row
  trace : List Effect

/-- Which store operations of one call are answered with an error object (`none`: answered
normally). -/
structure Faults where
  selectByUser : Option JsError
  selectByPortal : Option JsError
  upsert : Option JsError
  delete : Option JsError
  deriving DecidableEq

/-- The store answers every operation. -/
def Faults.none : Faults :=
  ⟨Option.none, Option.none, Option.none, Option.none⟩

/-- Modelled from the spec: the store client is a collaborator outside the repository; this is
the reply of a `select("*")` with one `eq` filter and `maybeSingle()` on the keyed table of
section 6: no row gives `data = null`, one row gives it, several rows give the error
`PGRST116`. -/
def maybeSingle (rows : List Row) (p : Row → Bool) : Except JsError (Option Row) :=
  match rows.filter p with
  | [] => .ok Option.none
  | [r] => .ok (some r)
  | _ => .error (.store "PGRST116" "JSON object requested, multiple (or no) rows returned")

/-- The row an upsert leaves when `user_id` is already present: the columns of the payload are
overwritten, a column the payload does not set is kept. -/
def mergeRow (r : Row) (d : TokenData) : Row :=
  { user_id := d.user_id
    access_token := some d.access_token
    refresh_token := some d.refresh_token
    expires_at := some d.expires_at
    updated_at := some d.updated_at
    portal_id := match d.portal_id with
      | some p => some p
      | Option.none => r.portal_id }

/-- The row an upsert inserts when `user_id` is new: a column the payload does not set is null. -/
def insertRow (d : TokenData) : Row :=
  { user_id := d.user_id
    access_token := some d.access_token
    refresh_token := some d.refresh_token
    expires_at := some d.expires_at
    updated_at := some d.updated_at
    portal_id := d.portal_id }

/-- Modelled from the spec: the store client is a collaborator outside the repository; this is
the table after the `upsert` of `tokenData` with conflict target `user_id` and
`ignoreDuplicates: false`, as in section 6 (upsert-on-conflict on the unique key `user_id`). -/
def upsertRows (rows : List Row) (d : TokenData) : List Row :=
  if rows.any (fun r => r.user_id == d.user_id) then
    rows.map (fun r => if r.user_id = d.user_id then mergeRow r d else r)
  else
    rows ++ [insertRow d]

/-- Modelled from the spec: the store client is a collaborator outside the repository; this is
the table after `delete().eq("user_id", userId)` of section 6 (delete-by `user_id`). -/
def deleteRows (rows : List Row) (userId : String) : List Row :=
  rows.filter (fun r => r.user_id != userId)

/-! ## `helper.js` -/

/-- The normalisation of `expires_at` on the way out of both readers: text that is non-empty,
does not end in `Z` and holds no `+` is replaced by `new Date(text).toISOString()`. -/
def normalizeExpiresAt (parse : DateParse) (data : Row) : Except JsError Row :=
  match data.expires_at with
  | some e =>
    if e != "" && !endsWithZ e && !includesPlus e then
      match toISOString (dateOfString parse e) with
      | .ok iso => .ok { data with expires_at := some iso }
      | .error err => .error err
    else .ok data
  | Option.none => .ok data

/-- The body of the `try` block of `getTokensFromSupabase`. -/
def getTokensFromSupabaseTry (parse : DateParse) (fault : Option JsError) (rows : List Row)
    (userId : String) : Except JsError (Option Row) :=
  let userIdStr := userId
  let reply : Except JsError (Option Row) :=
    match fault with
    | some e => .error e
    | Option.none => maybeSingle rows (fun r => r.user_id == userIdStr)
  match reply with
  | .error (.store code msg) =>
    if code != "PGRST116" then .error (.store code msg) else .ok Option.none
  | .error e => .error e
  | .ok Option.none => .ok Option.none
  | .ok (some data) =>
    match normalizeExpiresAt parse data with
    | .ok data => .ok (some data)
    | .error e => .error e

/-- The function `getTokensFromSupabase(userId)`: whatever the `try` block throws is logged and
turned into `null`, so the value is `none` for not found and for every failure. -/
def getTokensFromSupabase (parse : DateParse) (fault : Option JsError) (rows : List Row)
    (userId : String) : Option Row :=
  match getTokensFromSupabaseTry parse fault rows userId with
  | .ok data => data
  | .error _ => Option.none

/-- The body of the `try` block of `getTokensByPortalId`. -/
def getTokensByPortalIdTry (parse : DateParse) (fault : Option JsError) (rows : List Row)
    (portalId : JsValue) : Except JsError (Option Row) :=
  if !portalId.truthy then .ok Option.none
  else
    let reply : Except JsError (Option Row) :=
      match fault with
      | some e => .error e
      | Option.none => maybeSingle rows (fun r => r.portal_id == some portalId.toStr)
    match reply with
    | .error (.store code msg) =>
      if code != "PGRST116" then .error (.store code msg) else .ok Option.none
    | .error e => .error e
    | .ok Option.none => .ok Option.none
    | .ok (some data) =>
      match normalizeExpiresAt parse data with
      | .ok data => .ok (some data)
      | .error e => .error e

/-- The function `getTokensByPortalId(portalId)`: failures are logged and turned into `null`. -/
def getTokensByPortalId (parse : DateParse) (fault : Option JsError) (rows : List Row)
    (portalId : JsValue) : Option Row :=
  match getTokensByPortalIdTry parse fault rows portalId with
  | .ok data => data
  | .error _ => Option.none

/-- The store operations issued by `getTokensByPortalId(portalId)`. -/
def portalLookupTrace (portalId : JsValue) : List Effect :=
  if portalId.truthy then [.selectByPortal portalId.toStr] else []

/-- The function `deleteTokensFromSupabase(userId)`: the error of the reply is thrown. -/
def deleteTokensFromSupabase (fault : Option JsError) (rows : List Row) (userId : String) :
    Run Unit :=
  match fault with
  | some e => ⟨.error e, rows, [.delete userId]⟩
  | Option.none => ⟨.ok (), deleteRows rows userId, [.delete userId]⟩

/-- The argument of `isTokenExpired`, of the three kinds the specification gives: an absent
value (`null`, `undefined`), text, or a `Date`. The code sends text and any other value other
than a `Date` through the same `new Date(expiresAt)`. -/
inductive ExpiresAtArg where
  | absent
  | text (s : String)
  | date (time : Option Int)
  deriving DecidableEq

/-- The truthiness of the argument of `isTokenExpired`: a `Date` object is always truthy. -/
def ExpiresAtArg.truthy : ExpiresAtArg → Bool
  | .absent => false
  | .text s => s != ""
  | .date _ => true

/-- The value `expirationDate` of `isTokenExpired`: the `Date` itself, or `new Date(text)`. -/
def expirationDate (parse : DateParse) : ExpiresAtArg → Option Int
  | .absent => Option.none
  | .text s => dateOfString parse s
  | .date t => t

/-- The argument `tokenData.expires_at` that `getAccessToken` hands to `isTokenExpired`. -/
def expiresAtArg (tokenData : Row) : ExpiresAtArg :=
  match tokenData.expires_at with
  | some s => .text s
  | Option.none => .absent

/-- The function `isTokenExpired(expiresAt)` at clock reading `now`. -/
def isTokenExpired (parse : DateParse) (now : Int) (expiresAt : ExpiresAtArg) : Bool :=
  if !expiresAt.truthy then true
  else
    match expirationDate parse expiresAt with
    | Option.none => true
    | some t =>
      let timeUntilExpiry := t - now
      decide (timeUntilExpiry ≤ 10000)

/-- The value of `expiresAt` computed at the head of `storeTokensInSupabase` (lines 77-81),
with `now` the reading of `Date.now()`. -/
def computeExpiresAt (now : Int) (expiresIn : JsValue) : Except JsError String :=
  let expiresInSeconds : JsNum :=
    match expiresIn with
    | .num x => x
    | _ => .int 3600
  let expiresInSeconds : JsNum :=
    if expiresInSeconds.leZero then .int 3600 else expiresInSeconds
  toISOString (dateOfNum (expiresInSeconds.scaledFrom now))

/-- The variables that the portal block of `storeTokensInSupabase` (lines 86-98) may reassign. -/
structure Target where
  userId : String
  existingTokens : Option Row
  orphanedUserId : Option String
  deriving DecidableEq

/-- The portal block of `storeTokensInSupabase` (lines 86-98), given the row found by
`userId` and, when a portal id was passed, the row found by it. -/
def reconcile (originalUserId : String) (existingTokens : Option Row)
    (existingByPortal : Option Row) : Target :=
  match existingByPortal with
  | some byPortal =>
    if existingTokens.isNone || byPortal.user_id != originalUserId then
      { userId := byPortal.user_id
        existingTokens := some byPortal
        orphanedUserId :=
          if existingTokens.isSome && byPortal.user_id != originalUserId
          then some originalUserId else Option.none }
    else ⟨originalUserId, existingTokens, Option.none⟩
  | Option.none => ⟨originalUserId, existingTokens, Option.none⟩

/-- The test `portalId !== null && portalId !== undefined`. -/
def portalGiven (portalId : JsValue) : Bool :=
  portalId != .null && portalId != .undefined

/-- The key `portal_id` of `tokenData` (lines 108-112): the passed portal id, else the truthy
`portal_id` of the existing row, else not set. -/
def portalColumn (portalId : JsValue) (existingTokens : Option Row) : Option String :=
  if portalGiven portalId then some portalId.toStr
  else
    match existingTokens with
    | some row =>
      match row.portal_id with
      | some p => if p != "" then some p else Option.none
      | Option.none => Option.none
    | Option.none => Option.none

/-- The default parameter `portalId = null`: an argument that is `undefined` becomes `null`. -/
def defaultNull (portalIdArg : JsValue) : JsValue :=
  if portalIdArg = .undefined then .null else portalIdArg

/-- The value of `existingByPortal` (lines 87-88): the lookup is made only for a given
portal id. -/
def lookupPortal (parse : DateParse) (fault : Option JsError) (rows : List Row)
    (portalId : JsValue) : Option Row :=
  if portalGiven portalId then getTokensByPortalId parse fault rows portalId else Option.none

/-- The reads issued by `storeTokensInSupabase` before the upsert. -/
def writeReads (userId : String) (portalId : JsValue) : List Effect :=
  Effect.selectByUser userId :: (if portalGiven portalId then portalLookupTrace portalId else [])

/-- The object `tokenData` (lines 100-112). -/
def makeTokenData (target : Target) (accessToken refreshToken : JsValue) (expiresAt : String)
    (now2 : Int) (portalId : JsValue) : TokenData :=
  { user_id := target.userId
    access_token := accessToken.toStr
    refresh_token := refreshToken.toStr
    expires_at := expiresAt
    updated_at := isoString now2
    portal_id := portalColumn portalId target.existingTokens }

/-- The upsert and the cleanup of `storeTokensInSupabase` (lines 114-135): an error of the
upsert is thrown; the orphaned row is deleted when its id is truthy and differs from the final
`userId`, and a failed delete is logged and dropped. The value on success is `data`. -/
def commit (fx : Faults) (rows : List Row) (target : Target) (tokenData : TokenData)
    (reads : List Effect) : Run (List Row) :=
  match fx.upsert with
  | some error => ⟨.error error, rows, reads ++ [.upsert tokenData]⟩
  | Option.none =>
    let rows1 := upsertRows rows tokenData
    let data := rows1.filter (fun r => r.user_id == tokenData.user_id)
    match target.orphanedUserId with
    | some orphan =>
      if orphan != "" && orphan != target.userId then
        let del := deleteTokensFromSupabase fx.delete rows1 orphan
        ⟨.ok data, del.rows, reads ++ [.upsert tokenData] ++ del.trace⟩
      else ⟨.ok data, rows1, reads ++ [.upsert tokenData]⟩
    | Option.none => ⟨.ok data, rows1, reads ++ [.upsert tokenData]⟩

/-- The values of `userId`, `existingTokens` and `orphanedUserId` after line 98. -/
def writeTarget (parse : DateParse) (fx : Faults) (rows : List Row) (userId : String)
    (portalId : JsValue) : Target :=
  let originalUserId := userId
  let existingTokens := getTokensFromSupabase parse fx.selectByUser rows userId
  let existingByPortal := lookupPortal parse fx.selectByPortal rows portalId
  reconcile originalUserId existingTokens existingByPortal

/-- The function `storeTokensInSupabase(userId, accessToken, refreshToken, expiresIn, portalId)`.
`now` is the reading of `Date.now()` and `now2` the later reading for `updated_at`. A
`RangeError` of `toISOString` leaves before any store operation. -/
def storeTokensInSupabase (parse : DateParse) (fx : Faults) (now now2 : Int) (rows : List Row)
    (userId : String) (accessToken refreshToken expiresIn portalIdArg : JsValue) :
    Run (List Row) :=
  let portalId := defaultNull portalIdArg
  match computeExpiresAt now expiresIn with
  | .error e => ⟨.error e, rows, []⟩
  | .ok expiresAt =>
    let target := writeTarget parse fx rows userId portalId
    let tokenData := makeTokenData target accessToken refreshToken expiresAt now2 portalId
    commit fx rows target tokenData (writeReads userId portalId)

/-! ## `index.js` -/

/-- A parsed JSON text, as far as property reads on it go: an object with primitive fields,
`null`, or any other value. -/
inductive Json where
  | object (fields : List (String × JsValue))
  | null
  | other
  deriving DecidableEq

/-- The runtime service `JSON.parse`: `none` is a `SyntaxError`. -/
abbrev JsonParse := String → Option Json

/-- The property read `tokens.name`: a `TypeError` on `null`, `undefined` for a missing key. -/
def Json.get (j : Json) (name : String) : Except JsError JsValue :=
  match j with
  | .object fields =>
    match fields.lookup name with
    | some v => .ok v
    | Option.none => .ok .undefined
  | .null => .error (.error "Cannot read properties of null")
  | .other => .ok .undefined

/-- What the token endpoint does with the POST: a body, or a rejection. -/
inductive PostResult where
  | body (text : String)
  | rejected (e : JsError)
  deriving DecidableEq

/-- The values handed back by `exchangeForTokens`, `refreshAccessToken` and `getAccessToken`. -/
inductive Returned where
  /-- A primitive: `tokens.access_token`, `tokenData.access_token` or `null`. -/
  | value (v : JsValue)
  /-- The parsed error body `JSON.parse(e.response.body)`. -/
  | payload (j : Json)
  /-- The object whose only key is `message`, set to `e.message`. -/
  | messageObject (message : String)
  deriving DecidableEq

/-- The answers of the collaborators during one token exchange: the endpoint, the store
operations of the write, and the two clock readings of the write. -/
structure ExchangeEnv where
  post : PostResult
  faults : Faults
  now : Int
  now2 : Int
  deriving DecidableEq

/-- The `catch` block of `exchangeForTokens`: the parsed response body when the error carries a
response, else an object with the message; a body that is not JSON makes the block throw. -/
def exchangeCatch (json : JsonParse) (e : JsError) : Except JsError Returned :=
  match e.response with
  | some body =>
    match json body with
    | some j => .ok (.payload j)
    | Option.none => .error (.error "Unexpected token in JSON")
  | Option.none => .ok (.messageObject e.message)

/-- The function `exchangeForTokens(userId, exchangeProof)`; the proof is given by its
`grant_type` and its `code` or `refresh_token`. -/
def exchangeForTokens (parse : DateParse) (json : JsonParse) (env : ExchangeEnv)
    (rows : List Row) (userId : String) (grantType : String) (credential : JsValue) :
    Run Returned :=
  let sent : List Effect := [.post grantType credential]
  match env.post with
  | .rejected e => ⟨exchangeCatch json e, rows, sent⟩
  | .body responseBody =>
    match json responseBody with
    | Option.none => ⟨exchangeCatch json (.error "Unexpected token in JSON"), rows, sent⟩
    | some tokens =>
      match tokens.get "access_token", tokens.get "refresh_token", tokens.get "expires_in" with
      | .ok accessToken, .ok refreshToken, .ok expiresIn =>
        let stored := storeTokensInSupabase parse env.faults env.now env.now2 rows userId
          accessToken refreshToken expiresIn .null
        match stored.result with
        | .ok _ => ⟨.ok (.value accessToken), stored.rows, sent ++ stored.trace⟩
        | .error e => ⟨exchangeCatch json e, stored.rows, sent ++ stored.trace⟩
      | .error e, _, _ => ⟨exchangeCatch json e, rows, sent⟩
      | _, .error e, _ => ⟨exchangeCatch json e, rows, sent⟩
      | _, _, .error e => ⟨exchangeCatch json e, rows, sent⟩

/-- The function `refreshAccessToken(userId)`; `readFault` is the answer to its own read. -/
def refreshAccessToken (parse : DateParse) (json : JsonParse) (readFault : Option JsError)
    (env : ExchangeEnv) (rows : List Row) (userId : String) : Run Returned :=
  let read : List Effect := [.selectByUser userId]
  match getTokensFromSupabase parse readFault rows userId with
  | Option.none => ⟨.error (.error "No refresh token found for user"), rows, read⟩
  | some tokenData =>
    if !(ofColumn tokenData.refresh_token).truthy then
      ⟨.error (.error "No refresh token found for user"), rows, read⟩
    else
      let run := exchangeForTokens parse json env rows userId "refresh_token"
        (ofColumn tokenData.refresh_token)
      -- the `catch` block logs and rethrows
      ⟨run.result, run.rows, read ++ run.trace⟩

/-- The function `getAccessToken(userId)`; `readFault` is the answer to its own read, `clock`
the time seen by `isTokenExpired`, `refreshFault` and `env` the answers during a refresh. -/
def getAccessToken (parse : DateParse) (json : JsonParse) (readFault : Option JsError)
    (clock : Int) (refreshFault : Option JsError) (env : ExchangeEnv) (rows : List Row)
    (userId : String) : Run Returned :=
  let read : List Effect := [.selectByUser userId]
  match getTokensFromSupabase parse readFault rows userId with
  | Option.none => ⟨.ok (.value .null), rows, read⟩
  | some tokenData =>
    if isTokenExpired parse clock (expiresAtArg tokenData) then
      let run := refreshAccessToken parse json refreshFault env rows userId
      match run.result with
      | .ok v => ⟨.ok v, run.rows, read ++ run.trace⟩
      -- the `catch` block logs and returns `null`
      | .error _ => ⟨.ok (.value .null), run.rows, read ++ run.trace⟩
    else ⟨.ok (.value (ofColumn tokenData.access_token)), rows, read⟩

/-- The function `isAuthorized(userId)`; `readFault` is the answer to its read. -/
def isAuthorized (parse : DateParse) (readFault : Option JsError) (rows : List Row)
    (userId : String) : Run Bool :=
  let read : List Effect := [.selectByUser userId]
  match getTokensFromSupabase parse readFault rows userId with
  | Option.none => ⟨.ok false, rows, read⟩
  | some tokenData => ⟨.ok (tokenData.refresh_token != Option.none), rows, read⟩

/-! ## `calculateNewDate` of `helper.js` -/

/-- The sum `x + y` of two numbers. -/
def JsNum.add : JsNum → JsNum → JsNum
  | .int a, .int b => .int (a + b)
  | .nan, _ => .nan
  | _, .nan => .nan
  | .posInf, .negInf => .nan
  | .negInf, .posInf => .nan
  | .posInf, _ => .posInf
  | _, .posInf => .posInf
  | .negInf, _ => .negInf
  | _, .negInf => .negInf

/-- The product `x * 7`. -/
def JsNum.timesSeven : JsNum → JsNum
  | .int a => .int (a * 7)
  | x => x

/-- The runtime service that reads text as a number (`Number(text)`, with `NaN` for text that
is not numeric). -/
abbrev NumberParse := String → JsNum

/-- The conversion `Number(x)`, which `isNaN(x)` applies as well. -/
def toNumber (number : NumberParse) : JsValue → JsNum
  | .undefined => .nan
  | .null => .int 0
  | .bool true => .int 1
  | .bool false => .int 0
  | .num x => x
  | .str s => number s

/-- The test `isNaN(x)`. -/
def isNaN (number : NumberParse) (x : JsValue) : Bool :=
  toNumber number x == .nan

/-- The date `new Date(x)` for one argument that is not a `Date`. -/
def newDate (parse : DateParse) : JsValue → Option Int
  | .str s => dateOfString parse s
  | .num x => dateOfNum x
  | .bool true => timeClip 1
  | .bool false => timeClip 0
  | .null => timeClip 0
  | .undefined => Option.none

/-- The fields of a `Date` that `calculateNewDate` reads and sets. -/
inductive DateField where
  | minutes
  | hours
  | date
  | month
  deriving DecidableEq

/-- The local-time getters (`getMinutes`, `getHours`, `getDate`, `getMonth`) and setters of
the runtime `Date`; they depend on the time zone of the process and are taken as given. A
getter gives `NaN` on the invalid date, a setter gives the new time value. -/
structure LocalCalendar where
  get : DateField → Option Int → JsNum
  set : DateField → Option Int → JsNum → Option Int

/-- The `TypeError` of the call `unit.toLowerCase()` on a value that is not text. -/
def toLowerCaseTypeError : JsValue → JsError
  | .undefined => .error "Cannot read properties of undefined (reading toLowerCase)"
  | .null => .error "Cannot read properties of null (reading toLowerCase)"
  | _ => .error "unit.toLowerCase is not a function"

/-- The function `calculateNewDate(baseDate, amount, unit)`; `lower` is the runtime method
`toLowerCase` on text. -/
def calculateNewDate (parse : DateParse) (number : NumberParse) (lower : String → String)
    (calendar : LocalCalendar) (baseDate amount unit : JsValue) : Except JsError String :=
  if !baseDate.truthy then .error (.error "Base date missing")
  else if isNaN number amount then .error (.error "Amount must be a number")
  else
    let date := newDate parse baseDate
    let amt := toNumber number amount
    match unit with
    | .str text =>
      let u := lower text
      if u = "minutes" then
        toISOString (calendar.set .minutes date ((calendar.get .minutes date).add amt))
      else if u = "hours" then
        toISOString (calendar.set .hours date ((calendar.get .hours date).add amt))
      else if u = "days" then
        toISOString (calendar.set .date date ((calendar.get .date date).add amt))
      else if u = "weeks" then
        toISOString (calendar.set .date date ((calendar.get .date date).add amt.timesSeven))
      else if u = "months" then
        toISOString (calendar.set .month date ((calendar.get .month date).add amt))
      else .error (.error ("Invalid unit: " ++ text))
    | other => .error (toLowerCaseTypeError other)

/-! ## Specification-side definitions -/

/-- The number of seconds the specification of the writer prescribes for `expiresIn`: the
value itself when it is a positive number, 3600 when it is absent, not a number, zero or
negative. -/
def specSeconds : JsValue → Int
  | .num (.int n) => if 0 < n then n else 3600
  | _ => 3600

/-- No two rows share a `user_id`: the unique key of the table. -/
def UniqueUsers (rows : List Row) : Prop :=
  rows.Pairwise (fun a b => a.user_id ≠ b.user_id)

/-- No two rows share a non-null `portal_id`. -/
def UniquePortals (rows : List Row) : Prop :=
  rows.Pairwise (fun a b => a.portal_id = Option.none ∨ a.portal_id ≠ b.portal_id)

/-- The reader can hand the row out: normalising its `expires_at` does not throw. -/
def Readable (parse : DateParse) (r : Row) : Prop :=
  ∃ r1, normalizeExpiresAt parse r = .ok r1

/-- Every row of the table can be handed out by the reader. -/
def AllReadable (parse : DateParse) (rows : List Row) : Prop :=
  ∀ r ∈ rows, Readable parse r

/-! ## Sample inputs -/

/-- A `Date.parse` that recognises no text. -/
def parseNothing : DateParse := fun _ => Option.none

/-- A `Date.parse` that recognises one ISO text, the instant 1900000000000 ms. -/
def parseOne : DateParse := fun s =>
  if s = "2030-03-17T17:46:40.000Z" then some 1900000000000 else Option.none

/-- A table with a row bound to portal `p1` under `u1` and a row of `u2` without portal. -/
def tableBound : List Row :=
  [⟨"u1", some "a0", some "r0", some "1970-01-01T00:00:00.000Z", Option.none, some "p1"⟩,
   ⟨"u2", some "b0", some "q0", some "1970-01-01T00:00:00.000Z", Option.none, Option.none⟩]

/-- A table whose only row `u1` holds the empty text as portal id. -/
def tableEmptyPortal : List Row :=
  [⟨"u1", some "a0", some "r0", some "1970-01-01T00:00:00.000Z", Option.none, some ""⟩]

/-- A table with a row bound to portal `p1` under `u1` and a row whose user id is empty. -/
def tableEmptyUser : List Row :=
  [⟨"u1", some "a0", some "r0", some "1970-01-01T00:00:00.000Z", Option.none, some "p1"⟩,
   ⟨"", some "b0", some "q0", some "1970-01-01T00:00:00.000Z", Option.none, Option.none⟩]

/-- A table whose only row holds an `expires_at` without zone marker that does not parse. -/
def tableUnreadable : List Row :=
  [⟨"u1", some "a0", some "r0", some "soon", Option.none, some "p1"⟩]

/-- A table in which two rows hold portal `p1`. -/
def tableShared : List Row :=
  [⟨"u1", some "a0", some "r0", some "1970-01-01T00:00:00.000Z", Option.none, some "p1"⟩,
   ⟨"u3", some "c0", some "t0", some "1970-01-01T00:00:00.000Z", Option.none, some "p1"⟩]

/-- A table whose only row `s1` has neither refresh token nor expiry. -/
def tableNoRefresh : List Row :=
  [⟨"s1", some "old", Option.none, Option.none, Option.none, Option.none⟩]

/-- A table whose only row `s1` expires at the instant `parseOne` recognises. -/
def tableFresh : List Row :=
  [⟨"s1", some "a0", some "r0", some "2030-03-17T17:46:40.000Z", Option.none, Option.none⟩]

/-- A token endpoint that rejects with the body `ERR`, and every store operation answered. -/
def envRejected : ExchangeEnv :=
  ⟨.rejected (.status "400" "ERR"), Faults.none, 0, 0⟩

/-- A `JSON.parse` that reads the body `ERR` as an error object and nothing else. -/
def jsonErr : JsonParse := fun body =>
  if body = "ERR" then
    some (.object [("status", .str "BAD_REFRESH_TOKEN"), ("message", .str "invalid")])
  else Option.none

/-- A token endpoint that answers with the body `OK`, and every store operation answered. -/
def envGranted : ExchangeEnv :=
  ⟨.body "OK", Faults.none, 0, 0⟩

/-- A `JSON.parse` that reads the body `OK` as a token response and nothing else. -/
def jsonGranted : JsonParse := fun body =>
  if body = "OK" then
    some (.object [("access_token", .str "a1"), ("refresh_token", .str "r1"),
      ("expires_in", .num (.int 1800))])
  else Option.none

/-- A `toLowerCase` for sample runs: the letters `A` to `Z` are lowered, as the runtime does
on text of that alphabet. -/
def lowerAscii (s : String) : String :=
  String.mk (s.data.map Char.toLower)

/-- A calendar in the zone UTC for the minutes of the hour only, enough for sample runs. -/
def calendarMinutes : LocalCalendar :=
  { get := fun _ date =>
      match date with
      | some t => .int (t / 60000 % 60)
      | Option.none => .nan
    set := fun _ date x =>
      match date, x with
      | some t, .int m => timeClip (t - t / 60000 % 60 * 60000 + m * 60000)
      | _, _ => Option.none }

/-! # Theorems -/

/-! ## The expiry check -/

theorem isTokenExpired_true_iff (parse : DateParse) (now : Int) (arg : ExpiresAtArg) :
    isTokenExpired parse now arg = true ↔
      (expirationDate parse arg = Option.none ∨
        ∃ t, expirationDate parse arg = some t ∧ t - now ≤ 10000) := by
  cases arg with
  | absent => simp [isTokenExpired, ExpiresAtArg.truthy, expirationDate]
  | text s =>
    by_cases hs : s = ""
    · subst hs; simp [isTokenExpired, ExpiresAtArg.truthy, expirationDate, dateOfString]
    · cases h : dateOfString parse s <;>
        simp [isTokenExpired, ExpiresAtArg.truthy, expirationDate, hs, h]
  | date t =>
    cases t <;> simp [isTokenExpired, ExpiresAtArg.truthy, expirationDate]

theorem isTokenExpired_false_iff (parse : DateParse) (now : Int) (arg : ExpiresAtArg) :
    isTokenExpired parse now arg = false ↔
      ∃ t, expirationDate parse arg = some t ∧ 10000 < t - now := by
  cases arg with
  | absent => simp [isTokenExpired, ExpiresAtArg.truthy, expirationDate]
  | text s =>
    by_cases hs : s = ""
    · subst hs; simp [isTokenExpired, ExpiresAtArg.truthy, expirationDate, dateOfString]
    · cases h : dateOfString parse s
      · simp [isTokenExpired, ExpiresAtArg.truthy, expirationDate, hs, h]
      · simp [isTokenExpired, ExpiresAtArg.truthy, expirationDate, hs, h]
        omega
  | date t =>
    cases t
    · simp [isTokenExpired, ExpiresAtArg.truthy, expirationDate]
    · simp [isTokenExpired, ExpiresAtArg.truthy, expirationDate]
      omega

/-- Claim C3. `isTokenExpired` answers true for an absent value; for every argument it answers
true exactly when the argument gives no valid time or the time left until expiry is at most
10000 ms, and false exactly when a valid time lies more than 10000 ms ahead of the clock. -/
theorem isTokenExpired_iff (parse : DateParse) (now : Int) (arg : ExpiresAtArg) :
    isTokenExpired parse now .absent = true ∧
    (isTokenExpired parse now arg = true ↔
      (expirationDate parse arg = Option.none ∨
        ∃ t, expirationDate parse arg = some t ∧ t - now ≤ 10000)) ∧
    (isTokenExpired parse now arg = false ↔
      ∃ t, expirationDate parse arg = some t ∧ 10000 < t - now) :=
  ⟨by simp [isTokenExpired, ExpiresAtArg.truthy],
    isTokenExpired_true_iff parse now arg, isTokenExpired_false_iff parse now arg⟩

/-! ## The expiry written by the writer -/

theorem computeExpiresAt_eq (now : Int) (expiresIn : JsValue)
    (h1 : expiresIn ≠ .num .nan) (h2 : expiresIn ≠ .num .posInf) :
    computeExpiresAt now expiresIn
      = toISOString (timeClip (now + specSeconds expiresIn * 1000)) := by
  unfold computeExpiresAt specSeconds
  cases expiresIn with
  | num x =>
    cases x with
    | int n =>
      by_cases hn : n ≤ 0
      · have : ¬ 0 < n := by omega
        simp [JsNum.leZero, JsNum.scaledFrom, dateOfNum, hn, this]
      · have : 0 < n := by omega
        simp [JsNum.leZero, JsNum.scaledFrom, dateOfNum, hn, this]
    | nan => exact absurd rfl h1
    | posInf => exact absurd rfl h2
    | negInf => simp [JsNum.leZero, JsNum.scaledFrom, dateOfNum]
  | _ => simp [JsNum.leZero, JsNum.scaledFrom, dateOfNum]

theorem computeExpiresAt_ok (now : Int) (expiresIn : JsValue) (s : String)
    (h : computeExpiresAt now expiresIn = .ok s) :
    s = isoString (now + specSeconds expiresIn * 1000) := by
  by_cases h1 : expiresIn = .num .nan
  · subst h1; simp [computeExpiresAt, JsNum.leZero, JsNum.scaledFrom, dateOfNum, toISOString] at h
  by_cases h2 : expiresIn = .num .posInf
  · subst h2; simp [computeExpiresAt, JsNum.leZero, JsNum.scaledFrom, dateOfNum, toISOString] at h
  rw [computeExpiresAt_eq now expiresIn h1 h2] at h
  unfold timeClip at h
  split at h
  · simp [toISOString] at h; exact h.symm
  · simp [toISOString] at h

theorem storeTokens_of_expiry (parse : DateParse) (fx : Faults) (now now2 : Int)
    (rows : List Row) (userId : String) (a r expiresIn portalId : JsValue) (s : String)
    (h : computeExpiresAt now expiresIn = .ok s) :
    storeTokensInSupabase parse fx now now2 rows userId a r expiresIn portalId
      = commit fx rows (writeTarget parse fx rows userId (defaultNull portalId))
          (makeTokenData (writeTarget parse fx rows userId (defaultNull portalId)) a r s now2
            (defaultNull portalId))
          (writeReads userId (defaultNull portalId)) := by
  simp [storeTokensInSupabase, h]

theorem upsert_not_mem_reads (userId : String) (portalId : JsValue) (d : TokenData) :
    Effect.upsert d ∉ writeReads userId portalId := by
  unfold writeReads portalLookupTrace
  split <;> [split; skip] <;> simp

theorem commit_upsert_mem (fx : Faults) (rows : List Row) (target : Target)
    (tokenData d : TokenData) (reads : List Effect) (hr : Effect.upsert d ∉ reads) :
    Effect.upsert d ∈ (commit fx rows target tokenData reads).trace ↔ d = tokenData := by
  unfold commit deleteTokensFromSupabase
  split
  · simp [hr]
  · split
    · split
      · split <;> simp [hr]
      · simp [hr]
    · simp [hr]

/-- Claim C7. Every payload that `storeTokensInSupabase` hands to the upsert carries, as
`expires_at`, the text of `now + 3600 s` when `expiresIn` is absent, not a number, zero or
negative, and of `now + expiresIn s` when it is a positive number; the upsert is issued
whenever that time is a valid date; for `NaN` and `Infinity`, which give no time, the call
throws before any store operation. -/
theorem storeTokens_expires_at (parse : DateParse) (fx : Faults) (now now2 : Int)
    (rows : List Row) (userId : String) (a r expiresIn portalId : JsValue) :
    (∀ d, Effect.upsert d ∈
        (storeTokensInSupabase parse fx now now2 rows userId a r expiresIn portalId).trace →
      d.expires_at = isoString (now + specSeconds expiresIn * 1000)) ∧
    (expiresIn ≠ .num .nan → expiresIn ≠ .num .posInf →
      (now + specSeconds expiresIn * 1000).natAbs ≤ maxTime.toNat →
      ∃ d, Effect.upsert d ∈
        (storeTokensInSupabase parse fx now now2 rows userId a r expiresIn portalId).trace) ∧
    (expiresIn = .num .nan ∨ expiresIn = .num .posInf →
      (storeTokensInSupabase parse fx now now2 rows userId a r expiresIn portalId).trace = [] ∧
      (storeTokensInSupabase parse fx now now2 rows userId a r expiresIn portalId).result
        = .error (.error "Invalid time value")) := by
  refine ⟨?_, ?_, ?_⟩
  · intro d hd
    cases hc : computeExpiresAt now expiresIn with
    | error e => simp [storeTokensInSupabase, hc] at hd
    | ok s =>
      rw [storeTokens_of_expiry _ _ _ _ _ _ _ _ _ _ s hc,
        commit_upsert_mem _ _ _ _ _ _ (upsert_not_mem_reads _ _ _)] at hd
      subst hd
      exact computeExpiresAt_ok now expiresIn s hc
  · intro h1 h2 hrange
    have hc := computeExpiresAt_eq now expiresIn h1 h2
    simp only [timeClip, hrange, if_true, toISOString] at hc
    rw [storeTokens_of_expiry _ _ _ _ _ _ _ _ _ _ _ hc]
    exact ⟨_, (commit_upsert_mem _ _ _ _ _ _ (upsert_not_mem_reads _ _ _)).2 rfl⟩
  · intro h
    have hc : computeExpiresAt now expiresIn = .error (.error "Invalid time value") := by
      rcases h with h | h <;> subst h <;> rfl
    simp [storeTokensInSupabase, hc]

/-! ## The reader -/

theorem getTokens_of_fault (parse : DateParse) (e : JsError) (rows : List Row)
    (userId : String) : getTokensFromSupabase parse (some e) rows userId = Option.none := by
  unfold getTokensFromSupabase getTokensFromSupabaseTry
  cases e with
  | store code msg => by_cases h : code = "PGRST116" <;> simp [h]
  | error m => simp
  | status m b => simp

theorem getTokens_of_absent (parse : DateParse) (fault : Option JsError) (rows : List Row)
    (userId : String) (h : ∀ r ∈ rows, r.user_id ≠ userId) :
    getTokensFromSupabase parse fault rows userId = Option.none := by
  cases fault with
  | some e => exact getTokens_of_fault parse e rows userId
  | none =>
    have hf : rows.filter (fun r => r.user_id == userId) = [] := by
      simp only [List.filter_eq_nil_iff]
      intro r hr
      simpa using h r hr
    simp [getTokensFromSupabase, getTokensFromSupabaseTry, maybeSingle, hf]

/-! ## Failures of the store during a write -/

/-- Claim C6, as the code has it. Once the expiry is computed, a failed upsert is thrown to
the caller and the table is left as it was; failures of the two lookups are not thrown: with
any answers to the lookups and to the cleanup delete, the call completes normally when the
upsert is answered. -/
theorem storeTokens_failure_policy (parse : DateParse) (fx : Faults) (now now2 : Int)
    (rows : List Row) (userId : String) (a r expiresIn portalId : JsValue) (s : String)
    (hx : computeExpiresAt now expiresIn = .ok s) :
    (∀ e, fx.upsert = some e →
      (storeTokensInSupabase parse fx now now2 rows userId a r expiresIn portalId).result
          = .error e ∧
      (storeTokensInSupabase parse fx now now2 rows userId a r expiresIn portalId).rows
          = rows) ∧
    (fx.upsert = Option.none →
      ∃ data,
        (storeTokensInSupabase parse fx now now2 rows userId a r expiresIn portalId).result
          = .ok data) := by
  rw [storeTokens_of_expiry _ _ _ _ _ _ _ _ _ _ s hx]
  unfold commit
  constructor
  · intro e he
    simp [he]
  · intro he
    simp only [he]
    split
    · split <;> exact ⟨_, rfl⟩
    · exact ⟨_, rfl⟩

/-- Claim C6, witness: a write at time 0 into the empty table whose upsert is refused. -/
theorem storeTokens_failure_policy_witness :
    (storeTokensInSupabase (fun _ => Option.none)
        ⟨Option.none, Option.none, some (.store "23505" "refused"), Option.none⟩ 0 0 [] "s1"
        (.str "a") (.str "r") (.num (.int 3600)) .null).result
      = .error (.store "23505" "refused") :=
  ((storeTokens_failure_policy (fun _ => Option.none)
      ⟨Option.none, Option.none, some (.store "23505" "refused"), Option.none⟩ 0 0 [] "s1"
      (.str "a") (.str "r") (.num (.int 3600)) .null (isoString 3600000) rfl).1
    (.store "23505" "refused") rfl).1

/-- Claim C6, counterexample. With the lookup by `userId` answered by an error, and with the
lookup by `portalId` answered by an error, `storeTokensInSupabase` still completes normally
and writes the row. -/
theorem storeTokens_lookup_failure_not_raised :
    (storeTokensInSupabase (fun _ => Option.none)
        ⟨some (.store "500" "unreachable"), Option.none, Option.none, Option.none⟩ 0 0 [] "s1"
        (.str "a") (.str "r") (.num (.int 3600)) .null).result
      = .ok [⟨"s1", some "a", some "r", some "1970-01-01T01:00:00.000Z",
          some "1970-01-01T00:00:00.000Z", Option.none⟩] ∧
    (storeTokensInSupabase (fun _ => Option.none)
        ⟨Option.none, some (.store "500" "unreachable"), Option.none, Option.none⟩ 0 0 [] "s1"
        (.str "a") (.str "r") (.num (.int 3600)) (.str "p1")).result
      = .ok [⟨"s1", some "a", some "r", some "1970-01-01T01:00:00.000Z",
          some "1970-01-01T00:00:00.000Z", some "p1"⟩] := by
  constructor <;> rfl

/-! ## Refresh -/

/-- Claim C5, evaluation at the failing input. The row of `s1` holds a refresh token, the
token endpoint rejects the POST with a JSON error body, and `refreshAccessToken` returns the
parsed error body as its value instead of throwing; `getAccessToken` hands the same object to
its caller. -/
theorem refreshAccessToken_returns_error_payload :
    (refreshAccessToken parseNothing jsonErr Option.none envRejected
        [⟨"s1", some "a0", some "r0", some "1970-01-01T00:00:00.000Z", Option.none,
          Option.none⟩] "s1").result
      = .ok (.payload
          (.object [("status", .str "BAD_REFRESH_TOKEN"), ("message", .str "invalid")])) ∧
    (getAccessToken parseNothing jsonErr Option.none 1700000000000 Option.none envRejected
        [⟨"s1", some "a0", some "r0", some "1970-01-01T00:00:00.000Z", Option.none,
          Option.none⟩] "s1").result
      = .ok (.payload
          (.object [("status", .str "BAD_REFRESH_TOKEN"), ("message", .str "invalid")])) :=
  ⟨rfl, rfl⟩

/-! ## The access token getter -/

/-- Claim C4, as the code has it. With no row handed back the getter returns `null`; with a
stored expiry more than 10000 ms after the clock it returns the stored access token and issues
nothing but its own read, leaving the table as it was; otherwise (expiry absent, not a valid
time, or at most 10000 ms ahead) it runs `refreshAccessToken` and returns the value that
returns, or `null` when that throws. -/
theorem getAccessToken_spec (parse : DateParse) (json : JsonParse)
    (readFault : Option JsError) (clock : Int) (refreshFault : Option JsError)
    (env : ExchangeEnv) (rows : List Row) (userId : String) :
    (getTokensFromSupabase parse readFault rows userId = Option.none →
      (getAccessToken parse json readFault clock refreshFault env rows userId).result
          = .ok (.value .null) ∧
      (getAccessToken parse json readFault clock refreshFault env rows userId).rows = rows ∧
      (getAccessToken parse json readFault clock refreshFault env rows userId).trace
          = [.selectByUser userId]) ∧
    (∀ tokenData t, getTokensFromSupabase parse readFault rows userId = some tokenData →
      expirationDate parse (expiresAtArg tokenData) = some t → 10000 < t - clock →
      (getAccessToken parse json readFault clock refreshFault env rows userId).result
          = .ok (.value (ofColumn tokenData.access_token)) ∧
      (getAccessToken parse json readFault clock refreshFault env rows userId).rows = rows ∧
      (getAccessToken parse json readFault clock refreshFault env rows userId).trace
          = [.selectByUser userId]) ∧
    (∀ tokenData, getTokensFromSupabase parse readFault rows userId = some tokenData →
      (expirationDate parse (expiresAtArg tokenData) = Option.none ∨
        ∃ t, expirationDate parse (expiresAtArg tokenData) = some t ∧ t - clock ≤ 10000) →
      (getAccessToken parse json readFault clock refreshFault env rows userId).rows
          = (refreshAccessToken parse json refreshFault env rows userId).rows ∧
      (getAccessToken parse json readFault clock refreshFault env rows userId).trace
          = Effect.selectByUser userId ::
            (refreshAccessToken parse json refreshFault env rows userId).trace ∧
      (∀ v, (refreshAccessToken parse json refreshFault env rows userId).result = .ok v →
        (getAccessToken parse json readFault clock refreshFault env rows userId).result
          = .ok v) ∧
      (∀ e, (refreshAccessToken parse json refreshFault env rows userId).result = .error e →
        (getAccessToken parse json readFault clock refreshFault env rows userId).result
          = .ok (.value .null))) := by
  refine ⟨?_, ?_, ?_⟩
  · intro h
    simp [getAccessToken, h]
  · intro tokenData t h ht hlt
    have hexp : isTokenExpired parse clock (expiresAtArg tokenData) = false :=
      (isTokenExpired_false_iff parse clock (expiresAtArg tokenData)).2 ⟨t, ht, hlt⟩
    simp [getAccessToken, h, hexp]
  · intro tokenData h ht
    have hexp : isTokenExpired parse clock (expiresAtArg tokenData) = true :=
      (isTokenExpired_true_iff parse clock (expiresAtArg tokenData)).2 ht
    simp only [getAccessToken, h, hexp, if_true]
    cases hr : (refreshAccessToken parse json refreshFault env rows userId).result with
    | ok v => simp
    | error e => simp

/-! ## Lookups in a keyed table -/

theorem filter_eq_singleton {R : Row → Row → Prop} {q : Row → Bool} {l : List Row} {r : Row}
    (hR : ∀ a b, R a b → q a = true → q b = true → False) (hl : l.Pairwise R)
    (hr : r ∈ l) (hq : q r = true) : l.filter q = [r] := by
  induction l with
  | nil => cases hr
  | cons a l ih =>
    rw [List.pairwise_cons] at hl
    rcases List.mem_cons.1 hr with h | h
    · subst h
      have hnil : l.filter q = [] := by
        rw [List.filter_eq_nil_iff]
        intro b hb hqb
        exact hR r b (hl.1 b hb) hq hqb
      simp [List.filter_cons, hq, hnil]
    · have hqa : q a = false := by
        cases hqa : q a with
        | false => rfl
        | true => exact absurd (hR a r (hl.1 r h) hqa hq) id
      simp [List.filter_cons, hqa, ih hl.2 h]

theorem user_owner {rows : List Row} (hU : UniqueUsers rows) {a b : Row} (ha : a ∈ rows)
    (hb : b ∈ rows) (h : a.user_id = b.user_id) : a = b := by
  by_contra hne
  have hsymm : Symmetric (fun a b : Row => a.user_id ≠ b.user_id) := fun _ _ h => Ne.symm h
  exact hU.forall hsymm ha hb hne h

theorem portal_owner {rows : List Row} (hP : UniquePortals rows) {a b : Row} {p : String}
    (ha : a ∈ rows) (hb : b ∈ rows) (hpa : a.portal_id = some p) (hpb : b.portal_id = some p) :
    a = b := by
  by_contra hne
  have hsymm : Symmetric
      (fun a b : Row => a.portal_id = Option.none ∨ a.portal_id ≠ b.portal_id) := by
    intro x y hxy
    rcases hxy with h | h
    · by_cases hy : y.portal_id = Option.none
      · exact Or.inl hy
      · exact Or.inr (by rw [h]; exact hy)
    · exact Or.inr (Ne.symm h)
  rcases hP.forall hsymm ha hb hne with h | h
  · rw [hpa] at h; cases h
  · rw [hpa, hpb] at h; exact h rfl

theorem normalize_fields {parse : DateParse} {r r1 : Row}
    (h : normalizeExpiresAt parse r = .ok r1) :
    r1.user_id = r.user_id ∧ r1.portal_id = r.portal_id ∧
      r1.access_token = r.access_token ∧ r1.refresh_token = r.refresh_token := by
  unfold normalizeExpiresAt at h
  split at h
  · split at h
    · split at h
      · cases h; exact ⟨rfl, rfl, rfl, rfl⟩
      · cases h
    · cases h; exact ⟨rfl, rfl, rfl, rfl⟩
  · cases h; exact ⟨rfl, rfl, rfl, rfl⟩

theorem select_user_of_mem {rows : List Row} (hU : UniqueUsers rows) {r : Row}
    (hr : r ∈ rows) : rows.filter (fun x => x.user_id == r.user_id) = [r] :=
  filter_eq_singleton (R := fun a b => a.user_id ≠ b.user_id)
    (fun a b hab ha hb => hab (by simp at ha hb; rw [ha, hb])) hU hr (by simp)

theorem select_portal_of_mem {rows : List Row} (hP : UniquePortals rows) {r : Row}
    {p : String} (hr : r ∈ rows) (hp : r.portal_id = some p) :
    rows.filter (fun x => x.portal_id == some p) = [r] :=
  filter_eq_singleton
    (R := fun a b => a.portal_id = Option.none ∨ a.portal_id ≠ b.portal_id)
    (fun a b hab ha hb => by
      simp at ha hb
      rcases hab with h | h
      · rw [ha] at h; cases h
      · exact h (by rw [ha, hb])) hP hr (by simp [hp])

theorem getTokens_of_mem {parse : DateParse} {rows : List Row} (hU : UniqueUsers rows)
    {r r1 : Row} (hr : r ∈ rows) (hn : normalizeExpiresAt parse r = .ok r1) :
    getTokensFromSupabase parse Option.none rows r.user_id = some r1 := by
  simp [getTokensFromSupabase, getTokensFromSupabaseTry, maybeSingle,
    select_user_of_mem hU hr, hn]

theorem getTokens_some {parse : DateParse} {fault : Option JsError} {rows : List Row}
    {userId : String} {r1 : Row}
    (h : getTokensFromSupabase parse fault rows userId = some r1) :
    ∃ r ∈ rows, r.user_id = userId ∧ normalizeExpiresAt parse r = .ok r1 := by
  cases fault with
  | some e => rw [getTokens_of_fault] at h; cases h
  | none =>
    unfold getTokensFromSupabase getTokensFromSupabaseTry maybeSingle at h
    cases hf : rows.filter (fun r => r.user_id == userId) with
    | nil => simp [hf] at h
    | cons r tl =>
      have hmem : r ∈ rows.filter (fun r => r.user_id == userId) := by simp [hf]
      rw [List.mem_filter] at hmem
      cases tl with
      | nil =>
        simp only [hf] at h
        cases hn : normalizeExpiresAt parse r with
        | ok r2 =>
          simp [hn] at h
          exact ⟨r, hmem.1, by simpa using hmem.2, by rw [hn, h]⟩
        | error e => simp [hn] at h
      | cons r2 tl2 => simp [hf] at h

theorem getTokens_none_absent {parse : DateParse} {rows : List Row} {userId : String}
    (hU : UniqueUsers rows) (hA : AllReadable parse rows)
    (h : getTokensFromSupabase parse Option.none rows userId = Option.none) :
    ∀ r ∈ rows, r.user_id ≠ userId := by
  intro r hr hu
  obtain ⟨r1, hn⟩ := hA r hr
  have := getTokens_of_mem hU hr hn
  rw [hu, h] at this
  cases this

theorem getByPortal_of_falsy (parse : DateParse) (fault : Option JsError) (rows : List Row)
    (portalId : JsValue) (h : portalId.truthy = false) :
    getTokensByPortalId parse fault rows portalId = Option.none := by
  simp [getTokensByPortalId, getTokensByPortalIdTry, h]

theorem getByPortal_of_mem {parse : DateParse} {rows : List Row} (hP : UniquePortals rows)
    {portalId : JsValue} (ht : portalId.truthy = true) {r r1 : Row} (hr : r ∈ rows)
    (hp : r.portal_id = some portalId.toStr) (hn : normalizeExpiresAt parse r = .ok r1) :
    getTokensByPortalId parse Option.none rows portalId = some r1 := by
  simp [getTokensByPortalId, getTokensByPortalIdTry, maybeSingle, ht,
    select_portal_of_mem hP hr hp, hn]

theorem getByPortal_some {parse : DateParse} {fault : Option JsError} {rows : List Row}
    {portalId : JsValue} {r1 : Row}
    (h : getTokensByPortalId parse fault rows portalId = some r1) :
    portalId.truthy = true ∧
      ∃ r ∈ rows, r.portal_id = some portalId.toStr ∧ normalizeExpiresAt parse r = .ok r1 := by
  cases ht : portalId.truthy with
  | false => rw [getByPortal_of_falsy _ _ _ _ ht] at h; cases h
  | true =>
    refine ⟨rfl, ?_⟩
    cases fault with
    | some e =>
      exfalso
      unfold getTokensByPortalId getTokensByPortalIdTry at h
      cases e with
      | store code msg => by_cases hc : code = "PGRST116" <;> simp [hc, ht] at h
      | error m => simp [ht] at h
      | status m b => simp [ht] at h
    | none =>
      unfold getTokensByPortalId getTokensByPortalIdTry maybeSingle at h
      cases hf : rows.filter (fun r => r.portal_id == some portalId.toStr) with
      | nil => simp [hf, ht] at h
      | cons r tl =>
        have hmem : r ∈ rows.filter (fun r => r.portal_id == some portalId.toStr) := by
          simp [hf]
        rw [List.mem_filter] at hmem
        cases tl with
        | nil =>
          simp only [hf] at h
          cases hn : normalizeExpiresAt parse r with
          | ok r2 =>
            simp [hn, ht] at h
            exact ⟨r, hmem.1, by simpa using hmem.2, by rw [hn, h]⟩
          | error e => simp [hn, ht] at h
        | cons r2 tl2 => simp [hf, ht] at h

theorem getByPortal_none_absent {parse : DateParse} {rows : List Row} {portalId : JsValue}
    (hP : UniquePortals rows) (hA : AllReadable parse rows) (ht : portalId.truthy = true)
    (h : getTokensByPortalId parse Option.none rows portalId = Option.none) :
    ∀ r ∈ rows, r.portal_id ≠ some portalId.toStr := by
  intro r hr hp
  obtain ⟨r1, hn⟩ := hA r hr
  have := getByPortal_of_mem hP ht hr hp hn
  rw [h] at this
  cases this

/-! ## The upsert and the delete on a keyed table -/

theorem mem_upsertRows {rows : List Row} {d : TokenData} {x : Row} :
    x ∈ upsertRows rows d ↔
      (∃ r ∈ rows, r.user_id = d.user_id ∧ x = mergeRow r d) ∨
      (x ∈ rows ∧ x.user_id ≠ d.user_id ∧ ∃ r ∈ rows, r.user_id = d.user_id) ∨
      ((x ∈ rows ∨ x = insertRow d) ∧ ∀ r ∈ rows, r.user_id ≠ d.user_id) := by
  unfold upsertRows
  by_cases h : rows.any (fun r => r.user_id == d.user_id) = true
  · have hex : ∃ r ∈ rows, r.user_id = d.user_id := by simpa using h
    have hnot : ¬ ∀ r ∈ rows, r.user_id ≠ d.user_id := by
      obtain ⟨r, hr, hu⟩ := hex
      exact fun hall => hall r hr hu
    simp only [h, if_true, List.mem_map]
    constructor
    · rintro ⟨r, hr, rfl⟩
      by_cases hu : r.user_id = d.user_id
      · exact Or.inl ⟨r, hr, hu, by simp [hu]⟩
      · exact Or.inr (Or.inl ⟨by simpa [hu] using hr, by simp [hu], hex⟩)
    · rintro (⟨r, hr, hu, rfl⟩ | ⟨hx, hu, _⟩ | ⟨_, hall⟩)
      · exact ⟨r, hr, by simp [hu]⟩
      · exact ⟨x, hx, by simp [hu]⟩
      · exact absurd hall hnot
  · have hall : ∀ r ∈ rows, r.user_id ≠ d.user_id := by simpa using h
    have hnex : ¬ ∃ r ∈ rows, r.user_id = d.user_id := by
      rintro ⟨r, hr, hu⟩
      exact hall r hr hu
    rw [Bool.not_eq_true] at h
    simp only [h, Bool.false_eq_true, if_false, List.mem_append, List.mem_singleton]
    constructor
    · intro hx
      exact Or.inr (Or.inr ⟨hx, hall⟩)
    · rintro (⟨r, hr, hu, _⟩ | ⟨_, _, hex⟩ | ⟨hx, _⟩)
      · exact absurd hu (hall r hr)
      · exact absurd hex hnex
      · exact hx

theorem upsertRows_map_user_of_mem {rows : List Row} {d : TokenData}
    (h : ∃ r ∈ rows, r.user_id = d.user_id) :
    (upsertRows rows d).map Row.user_id = rows.map Row.user_id := by
  have hany : rows.any (fun r => r.user_id == d.user_id) = true := by simpa using h
  simp only [upsertRows, hany, if_true, List.map_map]
  apply List.map_congr_left
  intro r _
  by_cases hu : r.user_id = d.user_id
  · simp [hu, mergeRow]
  · simp [hu]

theorem uniqueUsers_upsert {rows : List Row} (hU : UniqueUsers rows) (d : TokenData) :
    UniqueUsers (upsertRows rows d) := by
  unfold UniqueUsers upsertRows
  by_cases h : rows.any (fun r => r.user_id == d.user_id) = true
  · simp only [h, if_true, List.pairwise_map]
    refine hU.imp ?_
    intro a b hab
    by_cases ha : a.user_id = d.user_id <;> by_cases hb : b.user_id = d.user_id
    · exact absurd (ha.trans hb.symm) hab
    · simpa [ha, hb, mergeRow] using Ne.symm hb
    · simp [ha, hb, mergeRow]
    · simpa [ha, hb] using hab
  · have hall : ∀ r ∈ rows, r.user_id ≠ d.user_id := by simpa using h
    rw [Bool.not_eq_true] at h
    simp only [h, Bool.false_eq_true, if_false, List.pairwise_append]
    refine ⟨hU, List.pairwise_singleton _ _, ?_⟩
    intro a ha b hb
    rw [List.mem_singleton] at hb
    subst hb
    exact hall a ha

theorem uniqueUsers_delete {rows : List Row} (hU : UniqueUsers rows) (u : String) :
    UniqueUsers (deleteRows rows u) :=
  List.Pairwise.sublist (List.filter_sublist _) hU

theorem uniquePortals_delete {rows : List Row} (hP : UniquePortals rows) (u : String) :
    UniquePortals (deleteRows rows u) :=
  List.Pairwise.sublist (List.filter_sublist _) hP

theorem uniquePortals_upsert {rows : List Row} (hU : UniqueUsers rows)
    (hP : UniquePortals rows) (d : TokenData)
    (hd : ∀ p, d.portal_id = some p → ∀ r ∈ rows, r.portal_id = some p →
      r.user_id = d.user_id) :
    UniquePortals (upsertRows rows d) := by
  unfold UniquePortals upsertRows
  by_cases h : rows.any (fun r => r.user_id == d.user_id) = true
  · simp only [h, if_true, List.pairwise_map]
    refine (hU.and hP).imp_of_mem ?_
    intro a b ha hb hab
    obtain ⟨hne, hp⟩ := hab
    by_cases hau : a.user_id = d.user_id <;> by_cases hbu : b.user_id = d.user_id
    · exact absurd (hau.trans hbu.symm) hne
    · simp only [hau, hbu, if_true, if_false]
      cases hdp : d.portal_id with
      | none => simpa [mergeRow, hdp] using hp
      | some p =>
        simp only [mergeRow, hdp]
        refine Or.inr ?_
        intro hbp
        exact hbu (hd p hdp b hb hbp.symm)
    · simp only [hau, hbu, if_true, if_false]
      cases hdp : d.portal_id with
      | none => simpa [mergeRow, hdp] using hp
      | some p =>
        simp only [mergeRow, hdp]
        by_cases hap : a.portal_id = some p
        · exact absurd (hd p hdp a ha hap) hau
        · by_cases han : a.portal_id = Option.none
          · exact Or.inl han
          · exact Or.inr hap
    · simpa [hau, hbu] using hp
  · have hall : ∀ r ∈ rows, r.user_id ≠ d.user_id := by simpa using h
    rw [Bool.not_eq_true] at h
    simp only [h, Bool.false_eq_true, if_false, List.pairwise_append]
    refine ⟨hP, List.pairwise_singleton _ _, ?_⟩
    intro a ha b hb
    rw [List.mem_singleton] at hb
    subst hb
    by_cases han : a.portal_id = Option.none
    · exact Or.inl han
    · refine Or.inr ?_
      intro hab
      cases hap : a.portal_id with
      | none => exact han hap
      | some p =>
        have hdp : d.portal_id = some p := by
          rw [hap] at hab; simpa [insertRow] using hab.symm
        exact hall a ha (hd p hdp a ha hap)

theorem mem_deleteRows {rows : List Row} {u : String} {x : Row} :
    x ∈ deleteRows rows u ↔ x ∈ rows ∧ x.user_id ≠ u := by
  simp [deleteRows]

/-! ## Rows the reader can hand out -/

theorem endsWithZ_isoString (t : Int) : endsWithZ (isoString t) = true := by
  simp [endsWithZ, isoString, String.data_append]

theorem normalize_of_endsWithZ (parse : DateParse) {x : Row} {s : String}
    (hs : x.expires_at = some s) (hz : endsWithZ s = true) :
    normalizeExpiresAt parse x = .ok x := by
  simp [normalizeExpiresAt, hs, hz]

theorem computeExpiresAt_endsWithZ {now : Int} {expiresIn : JsValue} {s : String}
    (h : computeExpiresAt now expiresIn = .ok s) : endsWithZ s = true := by
  rw [computeExpiresAt_ok now expiresIn s h]
  exact endsWithZ_isoString _

/-- The row keyed by the payload after an upsert, with the columns the payload sets. -/
theorem upsert_has_row (rows : List Row) (d : TokenData) :
    ∃ x ∈ upsertRows rows d, x.user_id = d.user_id ∧ x.access_token = some d.access_token ∧
      x.refresh_token = some d.refresh_token ∧ x.expires_at = some d.expires_at ∧
      (∀ p, d.portal_id = some p → x.portal_id = some p) := by
  by_cases h : ∃ r ∈ rows, r.user_id = d.user_id
  · obtain ⟨r0, hr0, hu0⟩ := h
    refine ⟨mergeRow r0 d, mem_upsertRows.2 (Or.inl ⟨r0, hr0, hu0, rfl⟩), rfl, rfl, rfl, rfl, ?_⟩
    intro p hp
    simp [mergeRow, hp]
  · have hall : ∀ r ∈ rows, r.user_id ≠ d.user_id := fun r hr hu => h ⟨r, hr, hu⟩
    refine ⟨insertRow d, mem_upsertRows.2 (Or.inr (Or.inr ⟨Or.inr rfl, hall⟩)),
      rfl, rfl, rfl, rfl, ?_⟩
    intro p hp
    simp [insertRow, hp]

theorem allReadable_upsert {parse : DateParse} {rows : List Row} (hA : AllReadable parse rows)
    (d : TokenData) (hz : endsWithZ d.expires_at = true) :
    AllReadable parse (upsertRows rows d) := by
  intro x hx
  rcases mem_upsertRows.1 hx with ⟨y, _, _, rfl⟩ | ⟨hxr, _, _⟩ | ⟨hxr | rfl, _⟩
  · exact ⟨_, normalize_of_endsWithZ parse (s := d.expires_at) rfl hz⟩
  · exact hA x hxr
  · exact hA x hxr
  · exact ⟨_, normalize_of_endsWithZ parse (s := d.expires_at) rfl hz⟩

theorem allReadable_delete {parse : DateParse} {rows : List Row} (hA : AllReadable parse rows)
    (u : String) : AllReadable parse (deleteRows rows u) :=
  fun x hx => hA x (mem_deleteRows.1 hx).1

/-! ## The target of a write -/

theorem reconcile_userId (u : String) (existing : Option Row) (byPortal : Row) :
    (reconcile u existing (some byPortal)).userId = byPortal.user_id := by
  unfold reconcile
  by_cases h : (existing.isNone || byPortal.user_id != u) = true
  · simp only [h, if_true]
  · simp only [h, if_false]
    simp at h
    exact h.2.symm

theorem reconcile_none (u : String) (existing : Option Row) :
    reconcile u existing Option.none = ⟨u, existing, Option.none⟩ := rfl

theorem lookupPortal_not_given (parse : DateParse) (fault : Option JsError) (rows : List Row)
    (portalId : JsValue) (h : portalGiven portalId = false) :
    lookupPortal parse fault rows portalId = Option.none := by
  simp [lookupPortal, h]

theorem lookupPortal_given (parse : DateParse) (fault : Option JsError) (rows : List Row)
    (portalId : JsValue) (h : portalGiven portalId = true) :
    lookupPortal parse fault rows portalId = getTokensByPortalId parse fault rows portalId := by
  simp [lookupPortal, h]

theorem portalColumn_given (portalId : JsValue) (existing : Option Row)
    (h : portalGiven portalId = true) :
    portalColumn portalId existing = some portalId.toStr := by
  simp [portalColumn, h]

theorem portalColumn_not_given {portalId : JsValue} {existing : Option Row} {p : String}
    (h : portalGiven portalId = false) (hp : portalColumn portalId existing = some p) :
    ∃ row, existing = some row ∧ row.portal_id = some p := by
  unfold portalColumn at hp
  simp only [h, Bool.false_eq_true, if_false] at hp
  cases existing with
  | none => simp at hp
  | some row =>
    refine ⟨row, rfl, ?_⟩
    cases hrow : row.portal_id with
    | none => simp [hrow] at hp
    | some q =>
      simp only [hrow] at hp
      split at hp
      · cases hp; rfl
      · cases hp

/-- The portal column of the payload of a write is held, in the table before the write, by no
row other than the one the write is keyed to. -/
theorem payload_portal_owner {parse : DateParse} {fx : Faults} {rows : List Row}
    (hP : UniquePortals rows) (hA : AllReadable parse rows)
    (hf : fx.selectByPortal = Option.none) (userId : String) (portalId : JsValue)
    (hg : portalGiven portalId = true → portalId.truthy = true) :
    ∀ p, portalColumn portalId (writeTarget parse fx rows userId portalId).existingTokens
        = some p →
      ∀ r ∈ rows, r.portal_id = some p →
        r.user_id = (writeTarget parse fx rows userId portalId).userId := by
  intro p hp r hr hrp
  unfold writeTarget at hp ⊢
  cases hgiven : portalGiven portalId with
  | false =>
    rw [lookupPortal_not_given _ _ _ _ hgiven, reconcile_none] at hp ⊢
    obtain ⟨row, hrow, hrowp⟩ := portalColumn_not_given hgiven hp
    obtain ⟨r0, hr0, hu0, hn0⟩ := getTokens_some hrow
    have hr0p : r0.portal_id = some p := by rw [← (normalize_fields hn0).2.1, hrowp]
    rw [portal_owner hP hr hr0 hrp hr0p]
    exact hu0
  | true =>
    have ht := hg hgiven
    rw [portalColumn_given _ _ hgiven] at hp
    have hpe : p = portalId.toStr := by cases hp; rfl
    subst hpe
    rw [lookupPortal_given _ _ _ _ hgiven, hf]
    cases hb : getTokensByPortalId parse Option.none rows portalId with
    | none => exact absurd hrp (getByPortal_none_absent hP hA ht hb r hr)
    | some bp =>
      obtain ⟨_, r0, hr0, hr0p, hn0⟩ := getByPortal_some hb
      rw [reconcile_userId, (normalize_fields hn0).1, portal_owner hP hr hr0 hrp hr0p]

theorem commit_rows_cases (fx : Faults) (rows : List Row) (target : Target) (d : TokenData)
    (reads : List Effect) :
    (commit fx rows target d reads).rows = rows ∨
    (commit fx rows target d reads).rows = upsertRows rows d ∨
    ∃ o, (commit fx rows target d reads).rows = deleteRows (upsertRows rows d) o := by
  unfold commit deleteTokensFromSupabase
  split
  · exact Or.inl rfl
  · split
    · split
      · split
        · exact Or.inr (Or.inl rfl)
        · exact Or.inr (Or.inr ⟨_, rfl⟩)
      · exact Or.inr (Or.inl rfl)
    · exact Or.inr (Or.inl rfl)

theorem storeTokens_rows_cases (parse : DateParse) (fx : Faults) (now now2 : Int)
    (rows : List Row) (userId : String) (a r expiresIn portalId : JsValue) :
    (storeTokensInSupabase parse fx now now2 rows userId a r expiresIn portalId).rows = rows ∨
    ∃ s d, d = makeTokenData (writeTarget parse fx rows userId (defaultNull portalId)) a r s
        now2 (defaultNull portalId) ∧
      ((storeTokensInSupabase parse fx now now2 rows userId a r expiresIn portalId).rows
          = upsertRows rows d ∨
        ∃ o, (storeTokensInSupabase parse fx now now2 rows userId a r expiresIn portalId).rows
          = deleteRows (upsertRows rows d) o) := by
  cases hc : computeExpiresAt now expiresIn with
  | error e => left; simp [storeTokensInSupabase, hc]
  | ok s =>
    rw [storeTokens_of_expiry _ _ _ _ _ _ _ _ _ _ s hc]
    rcases commit_rows_cases fx rows (writeTarget parse fx rows userId (defaultNull portalId))
      (makeTokenData (writeTarget parse fx rows userId (defaultNull portalId)) a r s now2
        (defaultNull portalId)) (writeReads userId (defaultNull portalId)) with h | h | h
    · exact Or.inl h
    · exact Or.inr ⟨s, _, rfl, Or.inl h⟩
    · exact Or.inr ⟨s, _, rfl, Or.inr h⟩

theorem storeTokens_uniqueUsers (parse : DateParse) (fx : Faults) (now now2 : Int)
    (rows : List Row) (userId : String) (a r expiresIn portalId : JsValue)
    (hU : UniqueUsers rows) :
    UniqueUsers
      (storeTokensInSupabase parse fx now now2 rows userId a r expiresIn portalId).rows := by
  rcases storeTokens_rows_cases parse fx now now2 rows userId a r expiresIn portalId with
    h | ⟨s, d, _, h | ⟨o, h⟩⟩
  · rw [h]; exact hU
  · rw [h]; exact uniqueUsers_upsert hU d
  · rw [h]; exact uniqueUsers_delete (uniqueUsers_upsert hU d) o

theorem storeTokens_allReadable (parse : DateParse) (fx : Faults) (now now2 : Int)
    (rows : List Row) (userId : String) (a r expiresIn portalId : JsValue)
    (hA : AllReadable parse rows) :
    AllReadable parse
      (storeTokensInSupabase parse fx now now2 rows userId a r expiresIn portalId).rows := by
  cases hc : computeExpiresAt now expiresIn with
  | error e => simpa [storeTokensInSupabase, hc] using hA
  | ok s =>
    have hz : endsWithZ (makeTokenData (writeTarget parse fx rows userId (defaultNull portalId))
        a r s now2 (defaultNull portalId)).expires_at = true := computeExpiresAt_endsWithZ hc
    rw [storeTokens_of_expiry _ _ _ _ _ _ _ _ _ _ s hc]
    rcases commit_rows_cases fx rows (writeTarget parse fx rows userId (defaultNull portalId))
      (makeTokenData (writeTarget parse fx rows userId (defaultNull portalId)) a r s now2
        (defaultNull portalId)) (writeReads userId (defaultNull portalId)) with h | h | ⟨o, h⟩
    · rw [h]; exact hA
    · rw [h]; exact allReadable_upsert hA _ hz
    · rw [h]; exact allReadable_delete (allReadable_upsert hA _ hz) o

/-- Claim C2, as the code has it. On a table with unique user ids, no shared non-null portal
id and readable rows, a write whose portal id is absent or truthy and whose lookup by portal
id is answered leaves a table in which again no two rows share a non-null portal id; the user
ids stay unique and the rows readable, so the three properties together are kept by every
such write. -/
theorem storeTokens_preserves_uniquePortals (parse : DateParse) (fx : Faults)
    (now now2 : Int) (rows : List Row) (userId : String) (a r expiresIn portalId : JsValue)
    (hU : UniqueUsers rows) (hP : UniquePortals rows) (hA : AllReadable parse rows)
    (hf : fx.selectByPortal = Option.none)
    (hg : portalGiven (defaultNull portalId) = true → portalId.truthy = true) :
    UniquePortals
      (storeTokensInSupabase parse fx now now2 rows userId a r expiresIn portalId).rows ∧
    UniqueUsers
      (storeTokensInSupabase parse fx now now2 rows userId a r expiresIn portalId).rows ∧
    AllReadable parse
      (storeTokensInSupabase parse fx now now2 rows userId a r expiresIn portalId).rows := by
  refine ⟨?_, storeTokens_uniqueUsers parse fx now now2 rows userId a r expiresIn portalId hU,
    storeTokens_allReadable parse fx now now2 rows userId a r expiresIn portalId hA⟩
  have hg1 : portalGiven (defaultNull portalId) = true →
      (defaultNull portalId).truthy = true := by
    intro h
    have := hg h
    unfold defaultNull
    split
    · rename_i hu; rw [hu] at this; cases this
    · exact this
  have hown := payload_portal_owner hP hA hf userId (defaultNull portalId) hg1
  rcases storeTokens_rows_cases parse fx now now2 rows userId a r expiresIn portalId with
    h | ⟨s, d, hd, h | ⟨o, h⟩⟩
  · rw [h]; exact hP
  · rw [h]; subst hd; exact uniquePortals_upsert hU hP _ hown
  · rw [h]; subst hd
    exact uniquePortals_delete (uniquePortals_upsert hU hP _ hown) o

/-! ## Portal reconciliation -/

/-- The write `(u2, p1)` against a table whose row `r1` holds the truthy portal id `p1` under
another user id: the table afterwards, spelled out. -/
theorem storeTokens_redirected {parse : DateParse} {rows : List Row} {r1 : Row}
    {u2 p1 : String} (now now2 : Int) (a r : String) (expiresIn : JsValue) {s : String}
    (hP : UniquePortals rows) (hA : AllReadable parse rows)
    (hr1 : r1 ∈ rows) (hp1 : r1.portal_id = some p1) (hne : u2 ≠ r1.user_id)
    (hp : p1 ≠ "") (hu2 : u2 ≠ "") (hx : computeExpiresAt now expiresIn = .ok s) :
    (∃ data, (storeTokensInSupabase parse Faults.none now now2 rows u2 (.str a) (.str r)
        expiresIn (.str p1)).result = .ok data) ∧
    (storeTokensInSupabase parse Faults.none now now2 rows u2 (.str a) (.str r)
        expiresIn (.str p1)).rows
      = if (getTokensFromSupabase parse Option.none rows u2).isSome then
          deleteRows (upsertRows rows ⟨r1.user_id, a, r, s, isoString now2, some p1⟩) u2
        else upsertRows rows ⟨r1.user_id, a, r, s, isoString now2, some p1⟩ := by
  obtain ⟨n1, hn1⟩ := hA r1 hr1
  have hgiven : portalGiven (JsValue.str p1) = true := by simp [portalGiven]
  have htruthy : (JsValue.str p1).truthy = true := by simp [JsValue.truthy, hp]
  have hlook : lookupPortal parse Option.none rows (.str p1) = some n1 := by
    rw [lookupPortal_given _ _ _ _ hgiven]
    exact getByPortal_of_mem hP htruthy hr1 (by simpa [JsValue.toStr] using hp1) hn1
  have hn1u : n1.user_id = r1.user_id := (normalize_fields hn1).1
  have hcond : (n1.user_id != u2) = true := by
    simp only [bne_iff_ne, hn1u]; exact Ne.symm hne
  have htarget : writeTarget parse Faults.none rows u2 (.str p1)
      = ⟨r1.user_id, some n1,
          if (getTokensFromSupabase parse Option.none rows u2).isSome then some u2
          else Option.none⟩ := by
    have hne1 : ¬ r1.user_id = u2 := fun h => hne h.symm
    simp [writeTarget, Faults.none, hlook, reconcile, hn1u, hne1]
  have hdata : makeTokenData (writeTarget parse Faults.none rows u2 (.str p1)) (.str a)
      (.str r) s now2 (.str p1) = ⟨r1.user_id, a, r, s, isoString now2, some p1⟩ := by
    simp [makeTokenData, htarget, portalColumn_given _ _ hgiven, JsValue.toStr]
  have hdef : defaultNull (JsValue.str p1) = .str p1 := by simp [defaultNull]
  rw [storeTokens_of_expiry _ _ _ _ _ _ _ _ _ _ s hx, hdef, hdata, htarget]
  cases hex : (getTokensFromSupabase parse Option.none rows u2).isSome with
  | false => simp [commit, Faults.none]
  | true => simp [commit, Faults.none, deleteTokensFromSupabase, hu2, hne]

/-- Claim C1, as the code has it. The table has unique user ids, one row `r1` with the
non-empty portal id `p1` and no other row with it, and readable rows; `u2` is non-empty and
differs from the user id of `r1`. After the write `(u2, a, r, expiresIn, p1)` with every
store operation answered, the call has completed, exactly one row holds `p1`, it has the user
id of `r1` and the tokens `a` and `r`, and no row has the user id `u2`. -/
theorem storeTokens_reconciles (parse : DateParse) (now now2 : Int) (rows : List Row)
    (r1 : Row) (u2 a r p1 : String) (expiresIn : JsValue) (s : String)
    (hU : UniqueUsers rows) (hP : UniquePortals rows) (hA : AllReadable parse rows)
    (hr1 : r1 ∈ rows) (hp1 : r1.portal_id = some p1) (hne : u2 ≠ r1.user_id)
    (hp : p1 ≠ "") (hu2 : u2 ≠ "") (hx : computeExpiresAt now expiresIn = .ok s) :
    (∃ data, (storeTokensInSupabase parse Faults.none now now2 rows u2 (.str a) (.str r)
        expiresIn (.str p1)).result = .ok data) ∧
    (storeTokensInSupabase parse Faults.none now now2 rows u2 (.str a) (.str r)
        expiresIn (.str p1)).rows.filter (fun x => x.portal_id == some p1)
      = [⟨r1.user_id, some a, some r, some s, some (isoString now2), some p1⟩] ∧
    (∀ x ∈ (storeTokensInSupabase parse Faults.none now now2 rows u2 (.str a) (.str r)
        expiresIn (.str p1)).rows, x.user_id ≠ u2) := by
  obtain ⟨hok, hrows⟩ := storeTokens_redirected now now2 a r expiresIn hP hA hr1 hp1 hne hp
    hu2 hx
  have hPu : UniquePortals (upsertRows rows ⟨r1.user_id, a, r, s, isoString now2, some p1⟩) := by
    refine uniquePortals_upsert hU hP _ ?_
    intro q hq x hx hxq
    have hq1 : q = p1 := by
      have : some p1 = some q := hq
      cases this
      rfl
    subst hq1
    rw [portal_owner hP hx hr1 hxq hp1]
  have hP1 : UniquePortals (storeTokensInSupabase parse Faults.none now now2 rows u2 (.str a)
      (.str r) expiresIn (.str p1)).rows := by
    rw [hrows]
    split
    · exact uniquePortals_delete hPu u2
    · exact hPu
  have hmerged : (⟨r1.user_id, some a, some r, some s, some (isoString now2), some p1⟩ : Row)
      ∈ upsertRows rows ⟨r1.user_id, a, r, s, isoString now2, some p1⟩ :=
    mem_upsertRows.2 (Or.inl ⟨r1, hr1, rfl, rfl⟩)
  have hothers : ∀ x ∈ upsertRows rows ⟨r1.user_id, a, r, s, isoString now2, some p1⟩,
      (∀ y ∈ rows, y.user_id ≠ u2) → x.user_id ≠ u2 := by
    intro x hx habs
    rcases mem_upsertRows.1 hx with ⟨y, _, _, rfl⟩ | ⟨hxr, _, _⟩ | ⟨_, hall⟩
    · exact Ne.symm hne
    · exact habs x hxr
    · exact absurd rfl (hall r1 hr1)
  refine ⟨hok, ?_, ?_⟩
  · refine select_portal_of_mem hP1 ?_ rfl
    rw [hrows]
    split
    · exact mem_deleteRows.2 ⟨hmerged, Ne.symm hne⟩
    · exact hmerged
  · rw [hrows]
    split
    · intro x hx
      exact (mem_deleteRows.1 hx).2
    · rename_i hnone
      intro x hx
      have hnone1 : getTokensFromSupabase parse Option.none rows u2 = Option.none := by
        cases h : getTokensFromSupabase parse Option.none rows u2 with
        | none => rfl
        | some v => simp [h] at hnone
      exact hothers x hx (getTokens_none_absent hU hA hnone1)

/-! ## Reading back what was written -/

theorem commit_ok_rows {fx : Faults} {rows : List Row} {target : Target} {d : TokenData}
    {reads : List Effect} {data : List Row}
    (hok : (commit fx rows target d reads).result = .ok data)
    (horphan : target.orphanedUserId = Option.none) :
    (commit fx rows target d reads).rows = upsertRows rows d := by
  unfold commit at hok ⊢
  cases hu : fx.upsert with
  | some e => simp [hu] at hok
  | none => simp [horphan]

/-- Claim C8. On a table with unique user ids, after a write `(u, a, r, e)` with a positive
`e` and no portal id has succeeded at time `now`, the read by `u` hands back a row whose
`user_id` is `u`, whose tokens are `a` and `r`, and whose `expires_at` is the text of
`now + e` seconds, which ends in `Z`. -/
theorem storeTokens_then_getTokens (parse : DateParse) (fx : Faults) (now now2 : Int)
    (rows : List Row) (u a r : String) (e : Int) (portalId : JsValue) (data : List Row)
    (hU : UniqueUsers rows) (he : 0 < e)
    (hp : portalId = .null ∨ portalId = .undefined)
    (hok : (storeTokensInSupabase parse fx now now2 rows u (.str a) (.str r)
      (.num (.int e)) portalId).result = .ok data) :
    ∃ row, getTokensFromSupabase parse Option.none
        (storeTokensInSupabase parse fx now now2 rows u (.str a) (.str r)
          (.num (.int e)) portalId).rows u = some row ∧
      row.user_id = u ∧ row.access_token = some a ∧ row.refresh_token = some r ∧
      row.expires_at = some (isoString (now + e * 1000)) ∧
      endsWithZ (isoString (now + e * 1000)) = true := by
  have hnull : defaultNull portalId = .null := by
    rcases hp with h | h <;> simp [h, defaultNull]
  cases hc : computeExpiresAt now (.num (.int e)) with
  | error err => simp [storeTokensInSupabase, hc] at hok
  | ok s =>
    have hs : s = isoString (now + e * 1000) := by
      have := computeExpiresAt_ok now _ s hc
      simpa [specSeconds, he] using this
    rw [storeTokens_of_expiry _ _ _ _ _ _ _ _ _ _ s hc, hnull] at hok ⊢
    have htarget : writeTarget parse fx rows u .null
        = ⟨u, getTokensFromSupabase parse fx.selectByUser rows u, Option.none⟩ := by
      simp [writeTarget, lookupPortal, portalGiven, reconcile]
    rw [commit_ok_rows hok (by rw [htarget])]
    obtain ⟨x, hx, hxu, hxa, hxr, hxe, _⟩ := upsert_has_row rows
      (makeTokenData (writeTarget parse fx rows u .null) (.str a) (.str r) s now2 .null)
    have hdu : (makeTokenData (writeTarget parse fx rows u .null) (.str a) (.str r) s now2
        .null).user_id = u := by simp [makeTokenData, htarget]
    rw [hdu] at hxu
    have hxe1 : x.expires_at = some s := hxe
    have hnorm : normalizeExpiresAt parse x = .ok x :=
      normalize_of_endsWithZ parse hxe1 (computeExpiresAt_endsWithZ hc)
    have hread := getTokens_of_mem (uniqueUsers_upsert hU _) hx hnorm
    rw [hxu] at hread
    exact ⟨x, hread, hxu, hxa, hxr, by rw [hxe1, hs], endsWithZ_isoString _⟩

/-! ## Writing twice -/

theorem commit_noFaults_rows (rows : List Row) (t : Target) (d : TokenData)
    (reads : List Effect) :
    (commit Faults.none rows t d reads).rows =
      match t.orphanedUserId with
      | some o =>
        if (o != "" && o != t.userId) = true then deleteRows (upsertRows rows d) o
        else upsertRows rows d
      | Option.none => upsertRows rows d := by
  unfold commit
  simp only [Faults.none, deleteTokensFromSupabase]
  cases t.orphanedUserId with
  | none => rfl
  | some o =>
    by_cases h : (o != "" && o != t.userId) = true
    · simp only [h, if_true]
    · simp only [h, if_false]
      rfl

theorem reconcile_orphan_cases (u : String) (existing byPortal : Option Row) :
    (reconcile u existing byPortal).orphanedUserId = Option.none ∨
    ((reconcile u existing byPortal).orphanedUserId = some u ∧ existing.isSome = true ∧
      (reconcile u existing byPortal).userId ≠ u) := by
  unfold reconcile
  cases byPortal with
  | none => exact Or.inl rfl
  | some bp =>
    by_cases h : (existing.isNone || bp.user_id != u) = true
    · by_cases h2 : (existing.isSome && bp.user_id != u) = true
      · right
        show (if _ then _ else _ : Target).orphanedUserId = some u ∧ _ ∧
          (if _ then _ else _ : Target).userId ≠ u
        rw [if_pos h, if_pos h2]
        simp at h2
        exact ⟨rfl, h2.1, h2.2⟩
      · left
        show (if _ then _ else _ : Target).orphanedUserId = Option.none
        rw [if_pos h, if_neg h2]
    · left
      show (if _ then _ else _ : Target).orphanedUserId = Option.none
      rw [if_neg h]

theorem reconcile_orphan_some {u : String} {existing : Option Row} {bp : Row}
    (he : existing.isSome = true) (hne : bp.user_id ≠ u) :
    (reconcile u existing (some bp)).orphanedUserId = some u := by
  simp [reconcile, he, hne]

theorem writeTarget_noFaults (parse : DateParse) (rows : List Row) (u : String)
    (p : JsValue) :
    writeTarget parse Faults.none rows u p
      = reconcile u (getTokensFromSupabase parse Option.none rows u)
          (lookupPortal parse Option.none rows p) := rfl

theorem lookupPortal_disabled (parse : DateParse) (rows : List Row) {p : JsValue}
    (h : ¬ (portalGiven p = true ∧ p.truthy = true)) :
    lookupPortal parse Option.none rows p = Option.none := by
  cases hg : portalGiven p with
  | false => exact lookupPortal_not_given _ _ _ _ hg
  | true =>
    rw [lookupPortal_given _ _ _ _ hg]
    cases ht : p.truthy with
    | false => exact getByPortal_of_falsy _ _ _ _ ht
    | true => exact absurd ⟨hg, ht⟩ h

theorem mem_upsert_other {rows : List Row} {d : TokenData} {y : Row}
    (hy : y ∈ upsertRows rows d) (hne : y.user_id ≠ d.user_id) : y ∈ rows := by
  rcases mem_upsertRows.1 hy with ⟨z, _, _, rfl⟩ | ⟨hyr, _, _⟩ | ⟨hyr | rfl, _⟩
  · exact absurd rfl hne
  · exact hyr
  · exact hyr
  · exact absurd rfl hne

/-- After a write with every store operation answered, the same write again is keyed to the
same row, finds it in the table, and deletes nothing. -/
theorem second_write_upsert (parse : DateParse) (rows rows1 : List Row) (u : String)
    (a r p : JsValue) (s1 : String) (m1 : Int)
    (hU : UniqueUsers rows) (hP : UniquePortals rows) (hA : AllReadable parse rows)
    (hz1 : endsWithZ s1 = true)
    (h1 : rows1 = (commit Faults.none rows (writeTarget parse Faults.none rows u p)
      (makeTokenData (writeTarget parse Faults.none rows u p) a r s1 m1 p)
      (writeReads u p)).rows) :
    (writeTarget parse Faults.none rows1 u p).userId
        = (writeTarget parse Faults.none rows u p).userId ∧
    (∃ x ∈ rows1, x.user_id = (writeTarget parse Faults.none rows u p).userId) ∧
    (∀ d reads, (commit Faults.none rows1 (writeTarget parse Faults.none rows1 u p) d
        reads).rows = upsertRows rows1 d) ∧
    ((writeTarget parse Faults.none rows u p).userId = u ∨
      ∃ x ∈ rows, x.portal_id = some p.toStr ∧
        x.user_id = (writeTarget parse Faults.none rows u p).userId) := by
  rw [commit_noFaults_rows] at h1
  by_cases hlook : portalGiven p = true ∧ p.truthy = true
  · obtain ⟨hG, hT⟩ := hlook
    -- the payload of the first write and the row it leaves
    have hd1p : (makeTokenData (writeTarget parse Faults.none rows u p) a r s1 m1 p).portal_id
        = some p.toStr := portalColumn_given _ _ hG
    obtain ⟨x, hx, hxu, _, _, hxe, hxp⟩ := upsert_has_row rows
      (makeTokenData (writeTarget parse Faults.none rows u p) a r s1 m1 p)
    have hxu1 : x.user_id = (writeTarget parse Faults.none rows u p).userId := hxu
    have hxp1 : x.portal_id = some p.toStr := hxp _ hd1p
    have hxn : normalizeExpiresAt parse x = .ok x :=
      normalize_of_endsWithZ parse (s := s1) hxe hz1
    have hfault : Faults.none.selectByPortal = Option.none := rfl
    have hown := payload_portal_owner hP hA hfault u p (fun _ => hT)
    have hUu := uniqueUsers_upsert hU
      (makeTokenData (writeTarget parse Faults.none rows u p) a r s1 m1 p)
    have hPu := uniquePortals_upsert hU hP
      (makeTokenData (writeTarget parse Faults.none rows u p) a r s1 m1 p) hown
    -- the table after the first write is again well formed and holds that row
    have hvalid : UniqueUsers rows1 ∧ UniquePortals rows1 ∧ x ∈ rows1 := by
      rcases reconcile_orphan_cases u (getTokensFromSupabase parse Option.none rows u)
        (lookupPortal parse Option.none rows p) with ho | ⟨ho, _, hne⟩
      · rw [writeTarget_noFaults] at h1
        simp only [ho] at h1
        rw [← writeTarget_noFaults] at h1
        rw [h1]
        exact ⟨hUu, hPu, hx⟩
      · rw [← writeTarget_noFaults] at ho hne
        simp only [ho] at h1
        split at h1
        · rw [h1]
          exact ⟨uniqueUsers_delete hUu u, uniquePortals_delete hPu u,
            mem_deleteRows.2 ⟨hx, by rw [hxu1]; exact hne⟩⟩
        · rw [h1]
          exact ⟨hUu, hPu, hx⟩
    obtain ⟨hU1, hP1, hx1⟩ := hvalid
    have hb2 : lookupPortal parse Option.none rows1 p = some x := by
      rw [lookupPortal_given _ _ _ _ hG]
      exact getByPortal_of_mem hP1 hT hx1 hxp1 hxn
    have ht2 : (writeTarget parse Faults.none rows1 u p).userId
        = (writeTarget parse Faults.none rows u p).userId := by
      rw [writeTarget_noFaults parse rows1, hb2, reconcile_userId, hxu1]
    refine ⟨ht2, ⟨x, hx1, hxu1⟩, ?_, ?_⟩
    · intro d reads
      rw [commit_noFaults_rows]
      rcases reconcile_orphan_cases u (getTokensFromSupabase parse Option.none rows1 u)
        (lookupPortal parse Option.none rows1 p) with ho | ⟨ho, hsome, hne⟩
      · rw [← writeTarget_noFaults] at ho
        simp only [ho]
      · rw [← writeTarget_noFaults] at ho hne
        simp only [ho]
        by_cases hfire : (u != "" && u != (writeTarget parse Faults.none rows1 u p).userId) = true
        · exfalso
          have hu0 : u ≠ "" := by
            simp at hfire; exact hfire.1
          rw [ht2] at hne
          -- a row of `u` is in the table after the first write
          cases hex2 : getTokensFromSupabase parse Option.none rows1 u with
          | none => simp [hex2] at hsome
          | some y1 =>
            obtain ⟨y, hy, hyu, _⟩ := getTokens_some hex2
            rcases reconcile_orphan_cases u (getTokensFromSupabase parse Option.none rows u)
              (lookupPortal parse Option.none rows p) with ho1 | ⟨ho1, _, _⟩
            · have hrows1 : rows1 = upsertRows rows
                  (makeTokenData (writeTarget parse Faults.none rows u p) a r s1 m1 p) := by
                rw [writeTarget_noFaults] at h1
                simp only [ho1] at h1
                rw [← writeTarget_noFaults] at h1
                exact h1
              rw [hrows1] at hy
              have hyrows : y ∈ rows := mem_upsert_other hy (by
                show y.user_id ≠ (writeTarget parse Faults.none rows u p).userId
                rw [hyu]; exact Ne.symm hne)
              obtain ⟨yn, hyn⟩ := hA y hyrows
              have hex1 := getTokens_of_mem hU hyrows hyn
              rw [hyu] at hex1
              cases hb1 : lookupPortal parse Option.none rows p with
              | none =>
                rw [writeTarget_noFaults, hb1, reconcile_none] at hne
                exact hne rfl
              | some bp =>
                rw [writeTarget_noFaults, hb1, reconcile_userId] at hne
                have hsome : (some yn : Option Row).isSome = true := rfl
                rw [hb1, hex1, reconcile_orphan_some hsome hne] at ho1
                cases ho1
            · rw [← writeTarget_noFaults] at ho1
              simp only [ho1] at h1
              have hfire1 : (u != "" && u != (writeTarget parse Faults.none rows u p).userId)
                  = true := by
                simp [hu0, Ne.symm hne]
              rw [if_pos hfire1] at h1
              rw [h1] at hy
              exact (mem_deleteRows.1 hy).2 hyu
        · simp only [hfire]
          rfl
    · cases hb1 : lookupPortal parse Option.none rows p with
      | none =>
        left
        rw [writeTarget_noFaults, hb1, reconcile_none]
      | some bp =>
        right
        rw [lookupPortal_given _ _ _ _ hG] at hb1
        obtain ⟨_, r0, hr0, hr0p, hn0⟩ := getByPortal_some hb1
        refine ⟨r0, hr0, hr0p, ?_⟩
        rw [writeTarget_noFaults, lookupPortal_given _ _ _ _ hG, hb1, reconcile_userId,
          (normalize_fields hn0).1]
  · have ht : ∀ R, writeTarget parse Faults.none R u p
        = ⟨u, getTokensFromSupabase parse Option.none R u, Option.none⟩ := by
      intro R
      rw [writeTarget_noFaults, lookupPortal_disabled parse R hlook, reconcile_none]
    rw [ht rows] at h1 ⊢
    rw [ht rows1]
    simp only at h1
    obtain ⟨x, hx, hxu, _⟩ := upsert_has_row rows
      (makeTokenData ⟨u, getTokensFromSupabase parse Option.none rows u, Option.none⟩
        a r s1 m1 p)
    refine ⟨rfl, ⟨x, by rw [h1]; exact hx, hxu⟩, ?_, Or.inl rfl⟩
    intro d reads
    rw [commit_noFaults_rows]

theorem defaultNull_given {p : JsValue} (h : portalGiven (defaultNull p) = true) :
    defaultNull p = p := by
  unfold defaultNull at h ⊢
  split
  · rename_i hu
    simp [hu, portalGiven] at h
  · rfl

theorem truthy_given {p : JsValue} (h : p.truthy = true) :
    portalGiven (defaultNull p) = true ∧ defaultNull p = p := by
  cases p with
  | undefined => cases h
  | null => cases h
  | bool b => exact ⟨rfl, rfl⟩
  | num x => exact ⟨rfl, rfl⟩
  | str s => exact ⟨rfl, rfl⟩

/-- The write is keyed to the row that holds the truthy portal id passed. -/
theorem writeTarget_userId_bound {parse : DateParse} {rows : List Row}
    (hP : UniquePortals rows) (hA : AllReadable parse rows) (u : String) {p : JsValue}
    (hg : portalGiven p = true) (ht : p.truthy = true) {x : Row} (hx : x ∈ rows)
    (hxp : x.portal_id = some p.toStr) :
    (writeTarget parse Faults.none rows u p).userId = x.user_id := by
  obtain ⟨x1, hn⟩ := hA x hx
  rw [writeTarget_noFaults, lookupPortal_given _ _ _ _ hg,
    getByPortal_of_mem hP ht hx hxp hn, reconcile_userId, (normalize_fields hn).1]

/-- The write is keyed to the `userId` passed when no portal id is passed, when it is falsy,
or when no row holds it. -/
theorem writeTarget_userId_own {parse : DateParse} {rows : List Row} (u : String)
    {p : JsValue}
    (h : portalGiven p = false ∨ p.truthy = false ∨
      ∀ x ∈ rows, x.portal_id ≠ some p.toStr) :
    (writeTarget parse Faults.none rows u p).userId = u := by
  rw [writeTarget_noFaults]
  cases hb : lookupPortal parse Option.none rows p with
  | none => rfl
  | some bp =>
    exfalso
    cases hg : portalGiven p with
    | false =>
      rw [lookupPortal_not_given _ _ _ _ hg] at hb
      cases hb
    | true =>
      rw [lookupPortal_given _ _ _ _ hg] at hb
      obtain ⟨ht, r0, hr0, hr0p, _⟩ := getByPortal_some hb
      rcases h with h | h | h
      · rw [hg] at h; cases h
      · rw [ht] at h; cases h
      · exact h r0 hr0 hr0p

/-- Claim C9, as the code has it. On a table with unique user ids, no shared non-null portal
id and readable rows, the same write is made twice with every store operation answered and
both calls completing. Then the second call neither adds nor removes a row; exactly one row
has the final user id `t`, and it holds the access token, the refresh token and the expiry of
the second call and, when a portal id was passed, that portal id. The final user id is fixed
by the first table: when the portal id passed is truthy and a row holds it, `t` is the user id
of that row; when the portal id is absent or falsy, or no row holds it, `t` is the `userId`
passed. -/
theorem storeTokens_twice (parse : DateParse) (n1 m1 n2 m2 : Int) (rows rows1 rows2 : List Row)
    (u : String) (a r e p : JsValue) (s1 s2 : String)
    (hU : UniqueUsers rows) (hP : UniquePortals rows) (hA : AllReadable parse rows)
    (hx1 : computeExpiresAt n1 e = .ok s1) (hx2 : computeExpiresAt n2 e = .ok s2)
    (h1 : rows1 = (storeTokensInSupabase parse Faults.none n1 m1 rows u a r e p).rows)
    (h2 : rows2 = (storeTokensInSupabase parse Faults.none n2 m2 rows1 u a r e p).rows) :
    rows2.map Row.user_id = rows1.map Row.user_id ∧
    ∃ t row, rows2.filter (fun x => x.user_id == t) = [row] ∧
      row.user_id = t ∧
      row.access_token = some a.toStr ∧ row.refresh_token = some r.toStr ∧
      row.expires_at = some s2 ∧
      (portalGiven (defaultNull p) = true → row.portal_id = some p.toStr) ∧
      (p.truthy = true → ∀ x ∈ rows, x.portal_id = some p.toStr → t = x.user_id) ∧
      ((p.truthy = false ∨ ∀ x ∈ rows, x.portal_id ≠ some p.toStr) → t = u) := by
  rw [storeTokens_of_expiry _ _ _ _ _ _ _ _ _ _ s1 hx1] at h1
  rw [storeTokens_of_expiry _ _ _ _ _ _ _ _ _ _ s2 hx2] at h2
  obtain ⟨ht2, ⟨x1, hx1mem, hx1u⟩, hcommit, _⟩ :=
    second_write_upsert parse rows rows1 u a r (defaultNull p) s1 m1 hU hP hA
      (computeExpiresAt_endsWithZ hx1) h1
  rw [hcommit] at h2
  have hU2 : UniqueUsers rows2 := by
    rw [h2]
    refine uniqueUsers_upsert ?_ _
    rw [h1]
    rcases commit_rows_cases Faults.none rows
      (writeTarget parse Faults.none rows u (defaultNull p))
      (makeTokenData (writeTarget parse Faults.none rows u (defaultNull p)) a r s1 m1
        (defaultNull p)) (writeReads u (defaultNull p)) with h | h | ⟨o, h⟩
    · rw [h]; exact hU
    · rw [h]; exact uniqueUsers_upsert hU _
    · rw [h]; exact uniqueUsers_delete (uniqueUsers_upsert hU _) o
  have hkey : (makeTokenData (writeTarget parse Faults.none rows1 u (defaultNull p)) a r s2 m2
      (defaultNull p)).user_id = (writeTarget parse Faults.none rows u (defaultNull p)).userId :=
    ht2
  constructor
  · rw [h2]
    exact upsertRows_map_user_of_mem ⟨x1, hx1mem, by rw [hkey]; exact hx1u⟩
  · obtain ⟨y, hy, hyu, hya, hyr, hye, hyp⟩ := upsert_has_row rows1
      (makeTokenData (writeTarget parse Faults.none rows1 u (defaultNull p)) a r s2 m2
        (defaultNull p))
    rw [← h2] at hy
    refine ⟨y.user_id, y, select_user_of_mem hU2 hy, rfl, hya, hyr, hye, ?_, ?_, ?_⟩
    · intro hg
      have := hyp _ (portalColumn_given _ _ hg)
      rw [defaultNull_given hg] at this
      exact this
    · intro ht x hx hxp
      obtain ⟨hg, hdef⟩ := truthy_given ht
      rw [hyu, hkey]
      rw [hdef] at hg ⊢
      exact writeTarget_userId_bound hP hA u hg ht hx hxp
    · intro h
      rw [hyu, hkey]
      apply writeTarget_userId_own
      by_cases hg : portalGiven (defaultNull p) = true
      · rw [defaultNull_given hg]
        exact Or.inr h
      · left
        simpa using hg

/-! ## Evaluations on sample tables -/

set_option maxRecDepth 8192 in
/-- The text of integers: in full up to 21 digits, with the shortest digits that give the
number back, and in exponent form beyond. -/
theorem intToStr_samples :
    intToStr 3600 = "3600" ∧ intToStr (-42) = "-42" ∧
    intToStr 9007199254740993 = "9007199254740992" ∧
    intToStr 1152921504606846976 = "1152921504606847000" ∧
    intToStr 999999999999999999999 = "1e+21" ∧
    intToStr 1000000000000000000000 = "1e+21" ∧
    intToStr 1180591620717411303424 = "1.1805916207174113e+21" ∧
    intToStr (-123456789012345678901234567890) = "-1.2345678901234568e+29" := by
  refine ⟨?_, ?_, ?_, ?_, ?_, ?_, ?_, ?_⟩ <;> decide

/-- A first write with the number 1e21 as portal id stores the text `1e+21`. -/
theorem storeTokens_numeric_portal :
    (storeTokensInSupabase parseNothing Faults.none 0 0 [] "s1" (.str "a") (.str "r")
        (.num (.int 3600)) (.num (.int 1000000000000000000000))).rows
      = [⟨"s1", some "a", some "r", some "1970-01-01T01:00:00.000Z",
          some "1970-01-01T00:00:00.000Z", some "1e+21"⟩] := by
  rfl

theorem allReadable_tableBound : AllReadable parseNothing tableBound := by
  intro x hx
  simp [tableBound] at hx
  rcases hx with rfl | rfl <;> exact ⟨_, rfl⟩

theorem uniqueUsers_tableBound : UniqueUsers tableBound := by
  unfold UniqueUsers tableBound
  decide

theorem uniquePortals_tableBound : UniquePortals tableBound := by
  unfold UniquePortals tableBound
  decide

/-- Claim C1, witness: `u2` with a row of its own re-installs portal `p1` bound to `u1`. -/
theorem storeTokens_reconciles_witness :
    (storeTokensInSupabase parseNothing Faults.none 0 0 tableBound "u2" (.str "a") (.str "r")
        (.num (.int 3600)) (.str "p1")).rows.filter (fun x => x.portal_id == some "p1")
      = [⟨"u1", some "a", some "r", some (isoString 3600000), some (isoString 0), some "p1"⟩] ∧
    (∀ x ∈ (storeTokensInSupabase parseNothing Faults.none 0 0 tableBound "u2" (.str "a")
        (.str "r") (.num (.int 3600)) (.str "p1")).rows, x.user_id ≠ "u2") :=
  (storeTokens_reconciles parseNothing 0 0 tableBound
    ⟨"u1", some "a0", some "r0", some "1970-01-01T00:00:00.000Z", Option.none, some "p1"⟩
    "u2" "a" "r" "p1" (.num (.int 3600)) (isoString 3600000)
    uniqueUsers_tableBound uniquePortals_tableBound allReadable_tableBound
    (by simp [tableBound]) rfl (by decide) (by decide) (by decide) rfl).2

/-- Claim C1, counterexample. (1) With the empty text as portal id the lookup by portal is
skipped and two rows end up holding it. (2) With the empty text as `u2` the orphaned row of
`u2` is not deleted. (3) With a row whose expiry cannot be read the bound row is not found and
a second row gets the portal id. (4) With two rows already holding `p1` a third one is added. -/
theorem storeTokens_reconcile_fails :
    (storeTokensInSupabase parseNothing Faults.none 0 0 tableEmptyPortal "u2" (.str "a")
        (.str "r") (.num (.int 3600)) (.str "")).rows
      = [⟨"u1", some "a0", some "r0", some "1970-01-01T00:00:00.000Z", Option.none, some ""⟩,
         ⟨"u2", some "a", some "r", some "1970-01-01T01:00:00.000Z",
           some "1970-01-01T00:00:00.000Z", some ""⟩] ∧
    (storeTokensInSupabase parseNothing Faults.none 0 0 tableEmptyUser "" (.str "a")
        (.str "r") (.num (.int 3600)) (.str "p1")).rows
      = [⟨"u1", some "a", some "r", some "1970-01-01T01:00:00.000Z",
           some "1970-01-01T00:00:00.000Z", some "p1"⟩,
         ⟨"", some "b0", some "q0", some "1970-01-01T00:00:00.000Z", Option.none,
           Option.none⟩] ∧
    (storeTokensInSupabase parseNothing Faults.none 0 0 tableUnreadable "u2" (.str "a")
        (.str "r") (.num (.int 3600)) (.str "p1")).rows
      = [⟨"u1", some "a0", some "r0", some "soon", Option.none, some "p1"⟩,
         ⟨"u2", some "a", some "r", some "1970-01-01T01:00:00.000Z",
           some "1970-01-01T00:00:00.000Z", some "p1"⟩] ∧
    (storeTokensInSupabase parseNothing Faults.none 0 0 tableShared "u2" (.str "a")
        (.str "r") (.num (.int 3600)) (.str "p1")).rows
      = [⟨"u1", some "a0", some "r0", some "1970-01-01T00:00:00.000Z", Option.none, some "p1"⟩,
         ⟨"u3", some "c0", some "t0", some "1970-01-01T00:00:00.000Z", Option.none, some "p1"⟩,
         ⟨"u2", some "a", some "r", some "1970-01-01T01:00:00.000Z",
           some "1970-01-01T00:00:00.000Z", some "p1"⟩] :=
  ⟨rfl, rfl, rfl, rfl⟩

/-- Claim C2, witness: a write of `u2` with portal `p1`, which is bound to `u1`. -/
theorem storeTokens_preserves_uniquePortals_witness :
    UniquePortals tableBound ∧
    UniquePortals (storeTokensInSupabase parseNothing Faults.none 0 0 tableBound "u2"
      (.str "a") (.str "r") (.num (.int 3600)) (.str "p1")).rows :=
  ⟨uniquePortals_tableBound,
    (storeTokens_preserves_uniquePortals parseNothing Faults.none 0 0 tableBound "u2"
      (.str "a") (.str "r") (.num (.int 3600)) (.str "p1") uniqueUsers_tableBound
      uniquePortals_tableBound allReadable_tableBound rfl (fun _ => rfl)).1⟩

/-- Claim C2, counterexample. Each table has no shared non-null portal id before the write and
two rows with the same portal id after it: (1) the portal id passed is the empty text; (2) the
lookup by portal id is answered with an error; (3) the row holding the portal id has an expiry
that cannot be read. -/
theorem storeTokens_breaks_uniquePortals :
    (UniquePortals tableEmptyPortal ∧
      ¬ UniquePortals (storeTokensInSupabase parseNothing Faults.none 0 0 tableEmptyPortal
        "u2" (.str "a") (.str "r") (.num (.int 3600)) (.str "")).rows) ∧
    (UniquePortals tableBound ∧
      ¬ UniquePortals (storeTokensInSupabase parseNothing
        ⟨Option.none, some (.store "500" "unreachable"), Option.none, Option.none⟩ 0 0
        tableBound "u3" (.str "a") (.str "r") (.num (.int 3600)) (.str "p1")).rows) ∧
    (UniquePortals tableUnreadable ∧
      ¬ UniquePortals (storeTokensInSupabase parseNothing Faults.none 0 0 tableUnreadable
        "u2" (.str "a") (.str "r") (.num (.int 3600)) (.str "p1")).rows) := by
  refine ⟨⟨?_, ?_⟩, ⟨?_, ?_⟩, ⟨?_, ?_⟩⟩ <;> unfold UniquePortals <;> decide

/-- Claim C4, witness: the stored expiry lies far ahead of the clock, so the stored access
token is returned after one read. -/
theorem getAccessToken_spec_witness :
    (getAccessToken parseOne jsonErr Option.none 1700000000000 Option.none envRejected
        tableFresh "s1").result = .ok (.value (.str "a0")) ∧
    (getAccessToken parseOne jsonErr Option.none 1700000000000 Option.none envRejected
        tableFresh "s1").rows = tableFresh ∧
    (getAccessToken parseOne jsonErr Option.none 1700000000000 Option.none envRejected
        tableFresh "s1").trace = [.selectByUser "s1"] :=
  (getAccessToken_spec parseOne jsonErr Option.none 1700000000000 Option.none envRejected
    tableFresh "s1").2.1
    ⟨"s1", some "a0", some "r0", some "2030-03-17T17:46:40.000Z", Option.none, Option.none⟩
    1900000000000 rfl rfl (by decide)

/-- Claim C4, counterexample. The row of `s1` has no expiry and no refresh token: the refresh
throws, so it has no result, and `getAccessToken` returns `null`. -/
theorem getAccessToken_refresh_throws :
    (refreshAccessToken parseNothing jsonErr Option.none envRejected tableNoRefresh
        "s1").result = .error (.error "No refresh token found for user") ∧
    (getAccessToken parseNothing jsonErr Option.none 0 Option.none envRejected tableNoRefresh
        "s1").result = .ok (.value .null) :=
  ⟨rfl, rfl⟩

/-- Claim C7, witness: a write at 2023-11-14T22:13:20Z with `expiresIn = 1800`. -/
theorem storeTokens_expires_at_witness :
    ∃ d, Effect.upsert d ∈ (storeTokensInSupabase parseNothing Faults.none 1700000000000
        1700000000000 [] "s1" (.str "a") (.str "r") (.num (.int 1800)) .null).trace ∧
      d.expires_at = "2023-11-14T22:43:20.000Z" := by
  obtain ⟨d, hd⟩ := (storeTokens_expires_at parseNothing Faults.none 1700000000000
    1700000000000 [] "s1" (.str "a") (.str "r") (.num (.int 1800)) .null).2.1
    (by decide) (by decide) (by decide)
  exact ⟨d, hd, (storeTokens_expires_at parseNothing Faults.none 1700000000000
    1700000000000 [] "s1" (.str "a") (.str "r") (.num (.int 1800)) .null).1 d hd⟩

/-- Claim C8, witness: the example of the specification, written at time 0. -/
theorem storeTokens_then_getTokens_witness :
    ∃ row, getTokensFromSupabase parseNothing Option.none
        (storeTokensInSupabase parseNothing Faults.none 0 0 [] "s1" (.str "a") (.str "r")
          (.num (.int 3600)) .undefined).rows "s1" = some row ∧
      row.user_id = "s1" ∧ row.access_token = some "a" ∧ row.refresh_token = some "r" ∧
      row.expires_at = some (isoString (0 + 3600 * 1000)) ∧
      endsWithZ (isoString (0 + 3600 * 1000)) = true :=
  storeTokens_then_getTokens parseNothing Faults.none 0 0 [] "s1" "a" "r" 3600 .undefined
    [⟨"s1", some "a", some "r", some "1970-01-01T01:00:00.000Z",
      some "1970-01-01T00:00:00.000Z", Option.none⟩]
    (by unfold UniqueUsers; decide) (by decide) (Or.inr rfl) rfl

/-- Claim C9, witness: `u2` writes portal `p1`, bound to `u1`, twice; the second call leaves
the user ids as they were and the one row written is the row of `u1`. -/
theorem storeTokens_twice_witness :
    ((storeTokensInSupabase parseNothing Faults.none 5 5
        (storeTokensInSupabase parseNothing Faults.none 0 0 tableBound "u2" (.str "a")
          (.str "r") (.num (.int 3600)) (.str "p1")).rows
        "u2" (.str "a") (.str "r") (.num (.int 3600)) (.str "p1")).rows).map Row.user_id
      = ((storeTokensInSupabase parseNothing Faults.none 0 0 tableBound "u2" (.str "a")
          (.str "r") (.num (.int 3600)) (.str "p1")).rows).map Row.user_id ∧
    ∃ row,
      (storeTokensInSupabase parseNothing Faults.none 5 5
        (storeTokensInSupabase parseNothing Faults.none 0 0 tableBound "u2" (.str "a")
          (.str "r") (.num (.int 3600)) (.str "p1")).rows
        "u2" (.str "a") (.str "r") (.num (.int 3600)) (.str "p1")).rows.filter
          (fun x => x.user_id == "u1") = [row] ∧
      row.access_token = some "a" ∧ row.refresh_token = some "r" ∧
      row.portal_id = some "p1" := by
  obtain ⟨hmap, t, row, hrow, _, ha, hr, _, hp, hbound, _⟩ :=
    storeTokens_twice parseNothing 0 0 5 5 tableBound _ _ "u2" (.str "a") (.str "r")
      (.num (.int 3600)) (.str "p1") (isoString 3600000) (isoString 3600005)
      uniqueUsers_tableBound uniquePortals_tableBound allReadable_tableBound rfl rfl rfl rfl
  have ht : t = "u1" :=
    hbound rfl
      ⟨"u1", some "a0", some "r0", some "1970-01-01T00:00:00.000Z", Option.none, some "p1"⟩
      (by simp [tableBound]) rfl
  subst ht
  exact ⟨hmap, row, hrow, ha, hr, hp rfl⟩

/-- Claim C9, counterexample. (1) `u2` writes portal `p1`, bound to `u1`, twice: the one row
written has user id `u1`, not the `u2` of the call, and no row has user id `u2`. (2) `u1`
writes twice without portal id: the row keeps portal `p1`, which is not an argument of the
call. -/
theorem double_write_keeps_bound_user :
    (storeTokensInSupabase parseNothing Faults.none 5 5
        (storeTokensInSupabase parseNothing Faults.none 0 0 tableBound "u2" (.str "a")
          (.str "r") (.num (.int 3600)) (.str "p1")).rows
        "u2" (.str "a") (.str "r") (.num (.int 3600)) (.str "p1")).rows
      = [⟨"u1", some "a", some "r", some "1970-01-01T01:00:00.005Z",
          some "1970-01-01T00:00:00.005Z", some "p1"⟩] ∧
    (storeTokensInSupabase parseNothing Faults.none 5 5
        (storeTokensInSupabase parseNothing Faults.none 0 0 tableBound "u1" (.str "a")
          (.str "r") (.num (.int 3600)) .null).rows
        "u1" (.str "a") (.str "r") (.num (.int 3600)) .null).rows
      = [⟨"u1", some "a", some "r", some "1970-01-01T01:00:00.005Z",
          some "1970-01-01T00:00:00.005Z", some "p1"⟩,
         ⟨"u2", some "b0", some "q0", some "1970-01-01T00:00:00.000Z", Option.none,
          Option.none⟩] :=
  ⟨rfl, rfl⟩

/-! ## The authorization check -/

/-- Claim C10. `isAuthorized` always returns a boolean and never throws; the boolean is true
exactly when the read hands back a row whose refresh token is not null; it is false when no row
has the `userId`, and false when the store read is answered with an error; on a table with
unique user ids and readable rows whose read is answered, it is true exactly when the row of
`userId` exists with a refresh token that is not null. -/
theorem isAuthorized_spec (parse : DateParse) (fault : Option JsError) (rows : List Row)
    (userId : String) :
    ∃ b, (isAuthorized parse fault rows userId).result = .ok b ∧
      (b = true ↔ ∃ row, getTokensFromSupabase parse fault rows userId = some row ∧
        row.refresh_token ≠ Option.none) ∧
      ((∀ x ∈ rows, x.user_id ≠ userId) → b = false) ∧
      (fault ≠ Option.none → b = false) ∧
      (fault = Option.none → UniqueUsers rows → AllReadable parse rows →
        (b = true ↔ ∃ x ∈ rows, x.user_id = userId ∧ x.refresh_token ≠ Option.none)) := by
  have htable : fault = Option.none → UniqueUsers rows → AllReadable parse rows →
      ((∃ row, getTokensFromSupabase parse fault rows userId = some row ∧
          row.refresh_token ≠ Option.none) ↔
        ∃ x ∈ rows, x.user_id = userId ∧ x.refresh_token ≠ Option.none) := by
    intro hf hU hA
    subst hf
    constructor
    · rintro ⟨row, hrow, href⟩
      obtain ⟨x, hx, hxu, hn⟩ := getTokens_some hrow
      exact ⟨x, hx, hxu, by rw [← (normalize_fields hn).2.2.2]; exact href⟩
    · rintro ⟨x, hx, hxu, href⟩
      obtain ⟨x1, hn⟩ := hA x hx
      refine ⟨x1, ?_, by rw [(normalize_fields hn).2.2.2]; exact href⟩
      rw [← hxu]
      exact getTokens_of_mem hU hx hn
  unfold isAuthorized
  cases h : getTokensFromSupabase parse fault rows userId with
  | none =>
    refine ⟨false, rfl, by simp, fun _ => rfl, fun _ => rfl, ?_⟩
    intro hf hU hA
    rw [← htable hf hU hA, h]
    simp
  | some row =>
    refine ⟨row.refresh_token != Option.none, rfl, by simp, ?_, ?_, ?_⟩
    · intro habs
      rw [getTokens_of_absent parse fault rows userId habs] at h
      cases h
    · intro hf
      cases fault with
      | none => exact absurd rfl hf
      | some e =>
        rw [getTokens_of_fault] at h
        cases h
    · intro hf hU hA
      rw [← htable hf hU hA, h]
      simp

/-- Claim C10, witness: the user `unknown` on the empty table is not authorized. -/
theorem isAuthorized_spec_witness :
    (isAuthorized parseNothing Option.none [] "unknown").result = .ok false := by
  obtain ⟨b, hb, _, habsent, _⟩ := isAuthorized_spec parseNothing Option.none [] "unknown"
  rw [hb, habsent (by simp)]

/-! ## Missing credentials -/

theorem getTokens_some_single {parse : DateParse} {fault : Option JsError} {rows : List Row}
    {userId : String} {r1 : Row}
    (h : getTokensFromSupabase parse fault rows userId = some r1) :
    ∃ r0, rows.filter (fun r => r.user_id == userId) = [r0] ∧
      normalizeExpiresAt parse r0 = .ok r1 := by
  cases fault with
  | some e => rw [getTokens_of_fault] at h; cases h
  | none =>
    unfold getTokensFromSupabase getTokensFromSupabaseTry maybeSingle at h
    cases hf : rows.filter (fun r => r.user_id == userId) with
    | nil => simp [hf] at h
    | cons r tl =>
      cases tl with
      | nil =>
        simp only [hf] at h
        cases hn : normalizeExpiresAt parse r with
        | ok r2 =>
          simp [hn] at h
          exact ⟨r, rfl, by rw [hn, h]⟩
        | error e => simp [hn] at h
      | cons r2 tl2 => simp [hf] at h

/-- Claim C12. For every table and `userId` such that no row has the `userId`, or a row with
the `userId` has a refresh token that is null or empty, `refreshAccessToken` throws the error
`No refresh token found for user`, issues nothing but its own read (no POST to the token
endpoint, no write) and leaves the table as it was, whatever the store answers to the read. -/
theorem refreshAccessToken_missing_credentials (parse : DateParse) (json : JsonParse)
    (readFault : Option JsError) (env : ExchangeEnv) (rows : List Row) (userId : String)
    (h : (∀ x ∈ rows, x.user_id ≠ userId) ∨
      ∃ x ∈ rows, x.user_id = userId ∧
        (x.refresh_token = Option.none ∨ x.refresh_token = some "")) :
    (refreshAccessToken parse json readFault env rows userId).result
        = .error (.error "No refresh token found for user") ∧
    (refreshAccessToken parse json readFault env rows userId).trace
        = [.selectByUser userId] ∧
    (refreshAccessToken parse json readFault env rows userId).rows = rows := by
  unfold refreshAccessToken
  cases hg : getTokensFromSupabase parse readFault rows userId with
  | none => exact ⟨rfl, rfl, rfl⟩
  | some tokenData =>
    rcases h with habs | ⟨x, hx, hxu, href⟩
    · rw [getTokens_of_absent parse readFault rows userId habs] at hg
      cases hg
    · obtain ⟨r0, hf, hn⟩ := getTokens_some_single hg
      have hx0 : x ∈ rows.filter (fun r => r.user_id == userId) := by
        rw [List.mem_filter]
        exact ⟨hx, by simpa using hxu⟩
      rw [hf, List.mem_singleton] at hx0
      subst hx0
      have hsame : tokenData.refresh_token = x.refresh_token := (normalize_fields hn).2.2.2
      have hfalsy : (ofColumn tokenData.refresh_token).truthy = false := by
        rw [hsame]
        rcases href with h0 | h0 <;> rw [h0] <;> rfl
      simp [hfalsy]

/-- Claim C12, witness: a refresh for `s1`, whose row has no refresh token. -/
theorem refreshAccessToken_missing_credentials_witness :
    (refreshAccessToken parseNothing jsonErr Option.none envRejected tableNoRefresh
        "s1").result = .error (.error "No refresh token found for user") ∧
    (refreshAccessToken parseNothing jsonErr Option.none envRejected tableNoRefresh
        "s1").trace = [.selectByUser "s1"] ∧
    (refreshAccessToken parseNothing jsonErr Option.none envRejected tableNoRefresh
        "s1").rows = tableNoRefresh :=
  refreshAccessToken_missing_credentials parseNothing jsonErr Option.none envRejected
    tableNoRefresh "s1"
    (Or.inr ⟨⟨"s1", some "old", Option.none, Option.none, Option.none, Option.none⟩,
      by simp [tableNoRefresh], rfl, Or.inl rfl⟩)

/-! ## Writes without a portal id -/

theorem writeTarget_null (parse : DateParse) (fx : Faults) (rows : List Row) (u : String) :
    writeTarget parse fx rows u .null
      = ⟨u, getTokensFromSupabase parse fx.selectByUser rows u, Option.none⟩ := by
  simp [writeTarget, lookupPortal, portalGiven, reconcile]

/-- The portal column of the payload of a write without portal id is not set, or is the one
the row of the user already holds. -/
theorem payload_portal_null {parse : DateParse} {fx : Faults} {rows : List Row} {r : Row}
    (hU : UniqueUsers rows) (hr : r ∈ rows) (a t : JsValue) (s : String) (now2 : Int) :
    (makeTokenData (writeTarget parse fx rows r.user_id .null) a t s now2 .null).portal_id
        = Option.none ∨
    (makeTokenData (writeTarget parse fx rows r.user_id .null) a t s now2 .null).portal_id
        = r.portal_id := by
  rw [writeTarget_null]
  cases hc : portalColumn .null (getTokensFromSupabase parse fx.selectByUser rows r.user_id) with
  | none => exact Or.inl hc
  | some q =>
    right
    obtain ⟨row, hrow, hq⟩ := portalColumn_not_given (by simp [portalGiven]) hc
    obtain ⟨r0, hr0, hu0, hn0⟩ := getTokens_some hrow
    have : r0 = r := user_owner hU hr0 hr hu0
    subst this
    show portalColumn .null (getTokensFromSupabase parse fx.selectByUser rows r0.user_id)
      = r0.portal_id
    rw [hc, ← (normalize_fields hn0).2.1, hq]

theorem upsertRows_of_mem {rows : List Row} {d : TokenData} {r : Row} (hr : r ∈ rows)
    (hu : r.user_id = d.user_id) :
    upsertRows rows d = rows.map (fun x => if x.user_id = d.user_id then mergeRow x d else x) := by
  have hany : rows.any (fun x => x.user_id == d.user_id) = true := by
    simp only [List.any_eq_true]
    exact ⟨r, hr, by simpa using hu⟩
  simp [upsertRows, hany]

theorem filter_others_map (u : String) (f : Row → Row) (rows : List Row)
    (hf : ∀ x, x.user_id ≠ u → f x = x) (hk : ∀ x, (f x).user_id = x.user_id) :
    (rows.map f).filter (fun x => x.user_id != u) = rows.filter (fun x => x.user_id != u) := by
  induction rows with
  | nil => rfl
  | cons x xs ih =>
    by_cases hx : x.user_id = u
    · have h1 : ((f x).user_id != u) = false := by simp [hk, hx]
      have h2 : (x.user_id != u) = false := by simp [hx]
      simp only [List.map_cons, List.filter_cons, h1, h2]
      exact ih
    · have h1 : ((f x).user_id != u) = true := by simp [hk, hx]
      have h2 : (x.user_id != u) = true := by simp [hx]
      simp only [List.map_cons, List.filter_cons, h1, h2, if_true, hf x hx]
      rw [ih]

/-- The table after an upsert keyed to a row that is present, with a payload whose portal
column is not set or repeats the one of that row: portal ids stay, other rows stay. -/
theorem upsert_keeps_portals {rows : List Row} {d : TokenData} {r : Row}
    (hU : UniqueUsers rows) (hr : r ∈ rows) (hu : r.user_id = d.user_id)
    (hp : d.portal_id = Option.none ∨ d.portal_id = r.portal_id) :
    (upsertRows rows d).map (fun x => (x.user_id, x.portal_id))
        = rows.map (fun x => (x.user_id, x.portal_id)) ∧
    (upsertRows rows d).filter (fun x => x.user_id != d.user_id)
        = rows.filter (fun x => x.user_id != d.user_id) ∧
    (upsertRows rows d).filter (fun x => x.user_id == d.user_id)
        = [⟨d.user_id, some d.access_token, some d.refresh_token, some d.expires_at,
            some d.updated_at, r.portal_id⟩] := by
  have hmerge : mergeRow r d = ⟨d.user_id, some d.access_token, some d.refresh_token,
      some d.expires_at, some d.updated_at, r.portal_id⟩ := by
    rcases hp with h | h
    · simp [mergeRow, h]
    · cases hrp : r.portal_id with
      | none => simp [mergeRow, h, hrp]
      | some q => simp [mergeRow, h, hrp]
  refine ⟨?_, ?_, ?_⟩
  · rw [upsertRows_of_mem hr hu, List.map_map]
    apply List.map_congr_left
    intro x hx
    by_cases hxu : x.user_id = d.user_id
    · have : x = r := user_owner hU hx hr (hxu.trans hu.symm)
      subst this
      simp [hxu, hmerge]
    · simp [hxu]
  · rw [upsertRows_of_mem hr hu]
    apply filter_others_map
    · intro x hx
      simp [hx]
    · intro x
      by_cases hxu : x.user_id = d.user_id
      · simp [hxu, mergeRow]
      · simp [hxu]
  · have hmem : mergeRow r d ∈ upsertRows rows d :=
      mem_upsertRows.2 (Or.inl ⟨r, hr, hu, rfl⟩)
    have := select_user_of_mem (uniqueUsers_upsert hU d) hmem
    rw [hmerge] at this
    exact this

/-- The write `(u, a, t, expiresIn)` without portal id against a table that holds a row of
`u`: either nothing is written and the call throws, or the row of `u` is overwritten in
place. -/
theorem storeTokens_no_portal {parse : DateParse} {rows : List Row} {r : Row}
    (fx : Faults) (now now2 : Int) (a t expiresIn portalId : JsValue)
    (hU : UniqueUsers rows) (hr : r ∈ rows)
    (hp : portalId = .null ∨ portalId = .undefined) :
    (storeTokensInSupabase parse fx now now2 rows r.user_id a t expiresIn portalId).rows.map
        (fun x => (x.user_id, x.portal_id))
      = rows.map (fun x => (x.user_id, x.portal_id)) ∧
    (storeTokensInSupabase parse fx now now2 rows r.user_id a t expiresIn portalId).rows.filter
        (fun x => x.user_id != r.user_id)
      = rows.filter (fun x => x.user_id != r.user_id) ∧
    (∀ data,
      (storeTokensInSupabase parse fx now now2 rows r.user_id a t expiresIn portalId).result
        = .ok data →
      ∃ s, computeExpiresAt now expiresIn = .ok s ∧
        (storeTokensInSupabase parse fx now now2 rows r.user_id a t expiresIn
            portalId).rows.filter (fun x => x.user_id == r.user_id)
          = [⟨r.user_id, some a.toStr, some t.toStr, some s, some (isoString now2),
              r.portal_id⟩]) := by
  have hnull : defaultNull portalId = .null := by
    rcases hp with h | h <;> simp [h, defaultNull]
  cases hc : computeExpiresAt now expiresIn with
  | error e =>
    have hrun : storeTokensInSupabase parse fx now now2 rows r.user_id a t expiresIn portalId
        = ⟨.error e, rows, []⟩ := by
      simp [storeTokensInSupabase, hc]
    rw [hrun]
    exact ⟨rfl, rfl, fun data h => by cases h⟩
  | ok s =>
    rw [storeTokens_of_expiry _ _ _ _ _ _ _ _ _ _ s hc, hnull]
    have horphan : (writeTarget parse fx rows r.user_id .null).orphanedUserId = Option.none := by
      rw [writeTarget_null]
    have hkey : r.user_id
        = (makeTokenData (writeTarget parse fx rows r.user_id .null) a t s now2 .null).user_id := by
      show r.user_id = (writeTarget parse fx rows r.user_id .null).userId
      rw [writeTarget_null]
    have hpay : (makeTokenData (writeTarget parse fx rows r.user_id .null) a t s now2
          .null).portal_id = Option.none ∨
        (makeTokenData (writeTarget parse fx rows r.user_id .null) a t s now2
          .null).portal_id = r.portal_id := payload_portal_null hU hr a t s now2
    obtain ⟨h1, h2, h3⟩ := upsert_keeps_portals hU hr hkey hpay
    cases hup : fx.upsert with
    | some e =>
      have hrun : commit fx rows (writeTarget parse fx rows r.user_id .null)
          (makeTokenData (writeTarget parse fx rows r.user_id .null) a t s now2 .null)
          (writeReads r.user_id .null)
          = ⟨.error e, rows, writeReads r.user_id .null ++
              [.upsert (makeTokenData (writeTarget parse fx rows r.user_id .null) a t s now2
                .null)]⟩ := by
        simp [commit, hup]
      rw [hrun]
      exact ⟨rfl, rfl, fun data h => by cases h⟩
    | none =>
      have hrows : (commit fx rows (writeTarget parse fx rows r.user_id .null)
          (makeTokenData (writeTarget parse fx rows r.user_id .null) a t s now2 .null)
          (writeReads r.user_id .null)).rows
          = upsertRows rows
              (makeTokenData (writeTarget parse fx rows r.user_id .null) a t s now2 .null) := by
        simp [commit, hup, horphan]
      rw [hrows]
      rw [← hkey] at h2 h3
      exact ⟨h1, h2, fun data _ => ⟨s, rfl, h3⟩⟩

theorem exchangeCatch_not_value (json : JsonParse) (e : JsError) (v : JsValue) :
    exchangeCatch json e ≠ .ok (.value v) := by
  unfold exchangeCatch
  cases e.response with
  | none => simp
  | some body => cases hj : json body <;> simp [hj]

/-- A token exchange that hands back a primitive has stored the tokens of the response with a
write without portal id, and that write has completed. -/
theorem exchange_value {parse : DateParse} {json : JsonParse} {env : ExchangeEnv}
    {rows : List Row} {userId grantType : String} {credential v : JsValue}
    (h : (exchangeForTokens parse json env rows userId grantType credential).result
      = .ok (.value v)) :
    ∃ body tokens t e data,
      env.post = .body body ∧ json body = some tokens ∧
      tokens.get "access_token" = .ok v ∧ tokens.get "refresh_token" = .ok t ∧
      (storeTokensInSupabase parse env.faults env.now env.now2 rows userId v t e .null).result
        = .ok data ∧
      (exchangeForTokens parse json env rows userId grantType credential).rows
        = (storeTokensInSupabase parse env.faults env.now env.now2 rows userId v t e
            .null).rows := by
  unfold exchangeForTokens at h ⊢
  cases hpost : env.post with
  | rejected e =>
    simp only [hpost] at h
    exact absurd h (exchangeCatch_not_value json e v)
  | body responseBody =>
    simp only [hpost] at h ⊢
    cases hj : json responseBody with
    | none =>
      simp only [hj] at h
      exact absurd h (exchangeCatch_not_value json _ v)
    | some tokens =>
      simp only [hj] at h ⊢
      cases ha : tokens.get "access_token" with
      | error e =>
        simp only [ha] at h
        exact absurd h (exchangeCatch_not_value json e v)
      | ok accessToken =>
        cases hr : tokens.get "refresh_token" with
        | error e =>
          simp only [ha, hr] at h
          exact absurd h (exchangeCatch_not_value json e v)
        | ok refreshToken =>
          cases he : tokens.get "expires_in" with
          | error e =>
            simp only [ha, hr, he] at h
            exact absurd h (exchangeCatch_not_value json e v)
          | ok expiresIn =>
            simp only [ha, hr, he] at h ⊢
            cases hs : (storeTokensInSupabase parse env.faults env.now env.now2 rows userId
                accessToken refreshToken expiresIn .null).result with
            | error e =>
              simp only [hs] at h
              exact absurd h (exchangeCatch_not_value json e v)
            | ok data =>
              simp only [hs] at h ⊢
              have hv : accessToken = v := by
                injection h with h1
                injection h1
              subst hv
              exact ⟨responseBody, tokens, refreshToken, expiresIn, data, rfl, hj, ha, hr, hs, rfl⟩

theorem refresh_value {parse : DateParse} {json : JsonParse} {readFault : Option JsError}
    {env : ExchangeEnv} {rows : List Row} {userId : String} {v : JsValue}
    (h : (refreshAccessToken parse json readFault env rows userId).result = .ok (.value v)) :
    ∃ body tokens t e data,
      env.post = .body body ∧ json body = some tokens ∧
      tokens.get "access_token" = .ok v ∧ tokens.get "refresh_token" = .ok t ∧
      (storeTokensInSupabase parse env.faults env.now env.now2 rows userId v t e .null).result
        = .ok data ∧
      (refreshAccessToken parse json readFault env rows userId).rows
        = (storeTokensInSupabase parse env.faults env.now env.now2 rows userId v t e
            .null).rows := by
  unfold refreshAccessToken at h ⊢
  cases hg : getTokensFromSupabase parse readFault rows userId with
  | none => simp [hg] at h
  | some tokenData =>
    simp only [hg] at h ⊢
    by_cases hf : (!(ofColumn tokenData.refresh_token).truthy) = true
    · simp [hf] at h
    · simp only [hf] at h ⊢
      exact exchange_value h

/-- Claim C11. On a table with unique user ids that holds a row of `u`, a write
`(u, a, t, expiresIn)` without portal id changes the portal id of no row and leaves every row
of another user as it was, whatever the store answers; when the write completes, the one row
of `u` still has its portal id and carries the tokens `a` and `t`. The same holds for the
table after a `refreshAccessToken(u)` that hands back the new access token: the row of `u`
keeps its portal id and carries the access and refresh token of the response. -/
theorem storeTokens_keeps_portal_binding (parse : DateParse) (json : JsonParse) (fx : Faults)
    (now now2 : Int) (rows : List Row) (r : Row) (a t expiresIn portalId : JsValue)
    (readFault : Option JsError) (env : ExchangeEnv)
    (hU : UniqueUsers rows) (hr : r ∈ rows)
    (hp : portalId = .null ∨ portalId = .undefined) :
    ((storeTokensInSupabase parse fx now now2 rows r.user_id a t expiresIn portalId).rows.map
        (fun x => (x.user_id, x.portal_id))
      = rows.map (fun x => (x.user_id, x.portal_id)) ∧
    (storeTokensInSupabase parse fx now now2 rows r.user_id a t expiresIn portalId).rows.filter
        (fun x => x.user_id != r.user_id)
      = rows.filter (fun x => x.user_id != r.user_id) ∧
    (∀ data,
      (storeTokensInSupabase parse fx now now2 rows r.user_id a t expiresIn portalId).result
        = .ok data →
      ∃ row,
        (storeTokensInSupabase parse fx now now2 rows r.user_id a t expiresIn
            portalId).rows.filter (fun x => x.user_id == r.user_id) = [row] ∧
        row.portal_id = r.portal_id ∧ row.access_token = some a.toStr ∧
        row.refresh_token = some t.toStr)) ∧
    (∀ v, (refreshAccessToken parse json readFault env rows r.user_id).result
        = .ok (.value v) →
      (refreshAccessToken parse json readFault env rows r.user_id).rows.map
          (fun x => (x.user_id, x.portal_id))
        = rows.map (fun x => (x.user_id, x.portal_id)) ∧
      (refreshAccessToken parse json readFault env rows r.user_id).rows.filter
          (fun x => x.user_id != r.user_id)
        = rows.filter (fun x => x.user_id != r.user_id) ∧
      ∃ row body tokens t1,
        (refreshAccessToken parse json readFault env rows r.user_id).rows.filter
          (fun x => x.user_id == r.user_id) = [row] ∧
        row.portal_id = r.portal_id ∧ row.access_token = some v.toStr ∧
        env.post = .body body ∧ json body = some tokens ∧
        tokens.get "refresh_token" = .ok t1 ∧ row.refresh_token = some t1.toStr) := by
  constructor
  · obtain ⟨h1, h2, h3⟩ := storeTokens_no_portal fx now now2 a t expiresIn portalId hU hr hp
    have h1a : (storeTokensInSupabase parse fx now now2 rows r.user_id a t expiresIn
        portalId).rows.map (fun x => (x.user_id, x.portal_id))
        = rows.map (fun x => (x.user_id, x.portal_id)) := h1
    refine ⟨h1a, h2, ?_⟩
    intro data hok
    obtain ⟨s, _, hrow⟩ := h3 data hok
    exact ⟨_, hrow, rfl, rfl, rfl⟩
  · intro v hv
    obtain ⟨body, tokens, t1, e, data, hpost, hj, _, ht1, hok, hrows⟩ := refresh_value hv
    obtain ⟨h1, h2, h3⟩ := storeTokens_no_portal env.faults env.now env.now2 v t1 e .null hU hr
      (Or.inl rfl)
    have h1a : (storeTokensInSupabase parse env.faults env.now env.now2 rows r.user_id v t1 e
        .null).rows.map (fun x => (x.user_id, x.portal_id))
        = rows.map (fun x => (x.user_id, x.portal_id)) := h1
    rw [hrows]
    obtain ⟨s, _, hrow⟩ := h3 data hok
    exact ⟨h1a, h2, _, body, tokens, t1, hrow, rfl, rfl, hpost, hj, ht1, rfl⟩

/-! ## The unit of `calculateNewDate` -/

theorem invalid_time_ne_invalid_unit (unit : String) :
    "Invalid time value" ≠ "Invalid unit: " ++ unit := by
  intro h
  have h1 := congrArg String.data h
  rw [String.data_append] at h1
  have h2 : "Invalid time value".data
      = 'I' :: 'n' :: 'v' :: 'a' :: 'l' :: 'i' :: 'd' :: ' ' :: 't' :: "ime value".data := rfl
  have h3 : "Invalid unit: ".data
      = 'I' :: 'n' :: 'v' :: 'a' :: 'l' :: 'i' :: 'd' :: ' ' :: 'u' :: "nit: ".data := rfl
  rw [h2, h3] at h1
  simp at h1

theorem toISOString_ne_invalid_unit (date : Option Int) (unit : String) :
    toISOString date ≠ .error (.error ("Invalid unit: " ++ unit)) := by
  cases date with
  | none =>
    intro h
    simp only [toISOString, Except.error.injEq, JsError.error.injEq] at h
    exact invalid_time_ne_invalid_unit unit h
  | some t => simp [toISOString]

/-- Claim C13. A falsy base date is rejected with `Base date missing` and, for a truthy base
date, an amount that is `NaN` is rejected with `Amount must be a number`, whatever the unit is,
text or not. For a truthy base date, an amount that is not `NaN` and a unit that is text,
`calculateNewDate` throws `Invalid unit: ` followed by the unit exactly when the lower-cased
unit is none of `minutes`, `hours`, `days`, `weeks`, `months`. -/
theorem calculateNewDate_errors (parse : DateParse) (number : NumberParse)
    (lower : String → String) (calendar : LocalCalendar) (baseDate amount anyUnit : JsValue)
    (unit : String) :
    (baseDate.truthy = false →
      calculateNewDate parse number lower calendar baseDate amount anyUnit
        = .error (.error "Base date missing")) ∧
    (baseDate.truthy = true → toNumber number amount = .nan →
      calculateNewDate parse number lower calendar baseDate amount anyUnit
        = .error (.error "Amount must be a number")) ∧
    (baseDate.truthy = true → toNumber number amount ≠ .nan →
      (calculateNewDate parse number lower calendar baseDate amount (.str unit)
          = .error (.error ("Invalid unit: " ++ unit)) ↔
        lower unit ∉ ["minutes", "hours", "days", "weeks", "months"])) := by
  refine ⟨?_, ?_, ?_⟩
  · intro hb
    simp [calculateNewDate, hb]
  · intro hb ha
    simp [calculateNewDate, hb, isNaN, ha]
  · intro hb ha
    have hnan : isNaN number amount = false := by simp [isNaN, ha]
    simp only [calculateNewDate, hb, hnan, Bool.not_true, Bool.false_eq_true, if_false]
    by_cases h1 : lower unit = "minutes"
    · simp [h1, toISOString_ne_invalid_unit]
    by_cases h2 : lower unit = "hours"
    · simp [h2, toISOString_ne_invalid_unit]
    by_cases h3 : lower unit = "days"
    · simp [h3, toISOString_ne_invalid_unit]
    by_cases h4 : lower unit = "weeks"
    · simp [h4, toISOString_ne_invalid_unit]
    by_cases h5 : lower unit = "months"
    · simp [h5, toISOString_ne_invalid_unit]
    simp [h1, h2, h3, h4, h5]

/-- Claim C13, witness: thirty `Minutes` are added, a `fortnights` unit is refused, and an
empty base date is refused although the unit is absent. -/
theorem calculateNewDate_errors_witness :
    calculateNewDate parseOne (fun _ => .nan) lowerAscii calendarMinutes
        (.str "2030-03-17T17:46:40.000Z") (.num (.int 30)) (.str "fortnights")
      = .error (.error "Invalid unit: fortnights") ∧
    calculateNewDate parseOne (fun _ => .nan) lowerAscii calendarMinutes
        (.str "") (.num (.int 30)) .undefined
      = .error (.error "Base date missing") ∧
    calculateNewDate parseOne (fun _ => .nan) lowerAscii calendarMinutes
        (.str "2030-03-17T17:46:40.000Z") (.num (.int 30)) (.str "Minutes")
      = .ok "2030-03-17T18:16:40.000Z" :=
  ⟨((calculateNewDate_errors parseOne (fun _ => .nan) lowerAscii calendarMinutes
      (.str "2030-03-17T17:46:40.000Z") (.num (.int 30)) .undefined "fortnights").2.2 rfl
      (by decide)).2 (by decide),
    (calculateNewDate_errors parseOne (fun _ => .nan) lowerAscii calendarMinutes
      (.str "") (.num (.int 30)) .undefined "fortnights").1 rfl,
    rfl⟩

/-- Claim C11, witness: `u1`, bound to portal `p1`, refreshes its tokens. -/
theorem storeTokens_keeps_portal_binding_witness :
    (refreshAccessToken parseNothing jsonGranted Option.none envGranted tableBound
        "u1").rows.map (fun x => (x.user_id, x.portal_id))
      = [("u1", some "p1"), ("u2", Option.none)] ∧
    (refreshAccessToken parseNothing jsonGranted Option.none envGranted tableBound
        "u1").rows.filter (fun x => x.user_id != "u1")
      = [⟨"u2", some "b0", some "q0", some "1970-01-01T00:00:00.000Z", Option.none,
          Option.none⟩] :=
  ⟨((storeTokens_keeps_portal_binding parseNothing jsonGranted Faults.none 0 0 tableBound
      ⟨"u1", some "a0", some "r0", some "1970-01-01T00:00:00.000Z", Option.none, some "p1"⟩
      (.str "a1") (.str "r1") (.num (.int 1800)) .null Option.none envGranted
      uniqueUsers_tableBound (by simp [tableBound]) (Or.inl rfl)).2 (.str "a1") rfl).1,
   ((storeTokens_keeps_portal_binding parseNothing jsonGranted Faults.none 0 0 tableBound
      ⟨"u1", some "a0", some "r0", some "1970-01-01T00:00:00.000Z", Option.none, some "p1"⟩
      (.str "a1") (.str "r1") (.num (.int 1800)) .null Option.none envGranted
      uniqueUsers_tableBound (by simp [tableBound]) (Or.inl rfl)).2 (.str "a1") rfl).2.1⟩

end TokenStore
